import Mathlib

/-!
# HW1: normal-mapped cubes with a mouse-driven camera (`Main.cpp`)

A shallow embedding of the host-side arithmetic of `Main.cpp`:

* the cursor callback `mouse_callback` and the globals it updates;
* the look direction the frame loop derives from `yaw` and `pitch`;
* the tangent/bitangent loop that runs over the indexed mesh;
* the light uniforms uploaded every frame;
* the model matrix of each cube.

`float` and `double` values are read as elements of an ordered field `α`.  The
functions that the program takes from `libm` and GLM and that are not field
operations (`cos`, `sin`, `sqrt`, the constant `π`) are collected in a `MathLib`
record that the definitions take as an argument, and `realLib` gives them their
meaning over `ℝ`.

Rounding is explicit where a claim depends on it: a `FloatModel` record gives
the rounding of a real number to a `float` and to a `double`.  `exactArith`
rounds nothing (every operation is exact), `ieee` rounds to the nearest binary32
and binary64 value, ties to even.  The cursor callback and the tangent
computation of one triangle take the `FloatModel` as an argument; infinities,
NaN, overflow and subnormal numbers are outside the model.  The definitions are
computable for a computable field such as `ℚ`.
-/

namespace HW1

/-! ## Vectors (`glm::vec3`) -/

/-- A `glm::vec3`. -/
@[ext]
structure Vec3 (α : Type) where
  x : α
  y : α
  z : α
deriving DecidableEq, Repr

namespace Vec3

variable {α : Type}

/-- The value of `glm::vec3(s)`: all three components equal to `s`. -/
def splat (s : α) : Vec3 α := ⟨s, s, s⟩

/-- Componentwise sum, `a + b` on `glm::vec3`. -/
def add [Add α] (a b : Vec3 α) : Vec3 α := ⟨a.x + b.x, a.y + b.y, a.z + b.z⟩

/-- Componentwise difference, `a - b` on `glm::vec3`. -/
def sub [Sub α] (a b : Vec3 α) : Vec3 α := ⟨a.x - b.x, a.y - b.y, a.z - b.z⟩

/-- Vector times scalar, `v * s` on `glm::vec3`. -/
def scale [Mul α] (v : Vec3 α) (s : α) : Vec3 α := ⟨v.x * s, v.y * s, v.z * s⟩

/-- Scalar times vector, `s * v` on `glm::vec3`. -/
def smul [Mul α] (s : α) (v : Vec3 α) : Vec3 α := ⟨s * v.x, s * v.y, s * v.z⟩

/-- The zero vector `glm::vec3(0.0f)`. -/
def zero [Zero α] : Vec3 α := ⟨0, 0, 0⟩

/-- The value of `glm::dot(a, b)`. -/
def dot [Add α] [Mul α] (a b : Vec3 α) : α := a.x * b.x + a.y * b.y + a.z * b.z

/-- The value of `glm::cross(a, b)`. -/
def cross [Sub α] [Mul α] (a b : Vec3 α) : Vec3 α :=
  ⟨a.y * b.z - b.y * a.z, a.z * b.x - b.z * a.x, a.x * b.y - b.x * a.y⟩

end Vec3

/-! ## The functions taken from `libm` and GLM -/

/-- The operations of the C and GLM maths libraries that are not field
operations: `cos`, `sin`, `sqrt` and the constant `π` behind `glm::radians`. -/
structure MathLib (α : Type) where
  cos : α → α
  sin : α → α
  sqrt : α → α
  pi : α

/-- The maths library over the real numbers. -/
noncomputable def realLib : MathLib ℝ where
  cos := Real.cos
  sin := Real.sin
  sqrt := Real.sqrt
  pi := Real.pi

section GLM

variable {α : Type} [Field α]

/-- The value of `glm::radians(degrees)`: `degrees * (π / 180)`. -/
def radians (L : MathLib α) (degrees : α) : α := degrees * (L.pi / 180)

/-- The value of `glm::inversesqrt(x)`: `1 / sqrt(x)`. -/
def inversesqrt (L : MathLib α) (x : α) : α := 1 / L.sqrt x

/-- The value of `glm::length(v)`: `sqrt(dot(v, v))`. -/
def length (L : MathLib α) (v : Vec3 α) : α := L.sqrt (Vec3.dot v v)

/-- The value of `glm::normalize(v)`: `v * inversesqrt(dot(v, v))`.  At the zero
vector the factor is `1 / 0`, which is `0` here and an infinity in IEEE
arithmetic (giving NaN components); in neither reading is the result a unit
vector. -/
def normalize (L : MathLib α) (v : Vec3 α) : Vec3 α :=
  Vec3.scale v (inversesqrt L (Vec3.dot v v))

end GLM

/-! ## Rounding to `float` and `double` -/

/-- The two roundings of the program's arithmetic: `toFloat x` is the `float`
that a real result `x` is stored as, `toDouble x` the `double`. -/
structure FloatModel (α : Type) where
  toFloat : α → α
  toDouble : α → α

/-- Exact arithmetic: nothing is rounded. -/
def exactArith {α : Type} : FloatModel α where
  toFloat := id
  toDouble := id

/-- Rounding to the nearest number with `prec` significant binary digits, ties
to the even significand; the exponent range is unbounded.  For `x ≠ 0` with
`2 ^ k ≤ |x| < 2 ^ (k + 1)` the spacing of such numbers around `x` is
`ulp = 2 ^ (k - (prec - 1))`, and `x` goes to the multiple of `ulp` nearest to it. -/
def roundNearestEven {α : Type} [LinearOrderedField α] [FloorRing α] (prec : Nat) (x : α) : α :=
  if x = 0 then 0 else
    let ulp : α := (2 : α) ^ (Int.log 2 |x| - ((prec : Int) - 1))
    let q := x / ulp
    let f : Int := Int.floor q
    let r := q - (f : α)
    let n : Int :=
      if r < 1 / 2 then f else if 1 / 2 < r then f + 1 else if f % 2 = 0 then f else f + 1
    (n : α) * ulp

/-- IEEE 754 arithmetic in the default rounding mode: `float` is binary32 (24
significant bits), `double` is binary64 (53 significant bits). -/
def ieee {α : Type} [LinearOrderedField α] [FloorRing α] : FloatModel α where
  toFloat := roundNearestEven 24
  toDouble := roundNearestEven 53

/-! ## Globals and the input callbacks -/

/-- The mutable globals of `Main.cpp` (lines 23-30). -/
structure Globals (α : Type) where
  lookDir : Vec3 α
  firstMouse : Bool
  yaw : α
  pitch : α
  lastX : α
  lastY : α
  fov : α
  normalMappingEnable : Bool

/-- The constant `windowWidth`. -/
def windowWidth : Nat := 640

/-- The constant `windowHeight`. -/
def windowHeight : Nat := 480

section Camera

variable {α : Type} [LinearOrderedField α]

/-- The initial values of the globals. -/
def initGlobals : Globals α where
  lookDir := Vec3.splat 0.0
  firstMouse := true
  yaw := -90
  pitch := 0
  lastX := (windowWidth : α) / 2
  lastY := (windowHeight : α) / 2
  fov := 45
  normalMappingEnable := true

/-- The look direction as a function of yaw and pitch in degrees (lines 386-388
and 565-567). -/
def sphericalDir (L : MathLib α) (yaw pitch : α) : Vec3 α where
  x := L.cos (radians L yaw) * L.cos (radians L pitch)
  y := L.sin (radians L pitch)
  z := L.sin (radians L yaw) * L.cos (radians L pitch)

/-- The cursor-position callback `mouse_callback(window, xpos, ypos)`.  The
parameters `xpos`, `ypos` are `double`, the globals and the locals are `float`:
every store of a `double` in a `float` and every `float` operation of lines
540-562 rounds with `F.toFloat`, the two subtractions of lines 547-548 are done
in `double`.  The look direction of lines 564-568 is computed from the stored
yaw and pitch without rounding. -/
def mouse_callback (L : MathLib α) (F : FloatModel α) (g : Globals α) (xpos ypos : α) :
    Globals α :=
  -- if (firstMouse) { lastX = xpos; lastY = ypos; firstMouse = false; }
  let lastX := if g.firstMouse then F.toFloat xpos else g.lastX
  let lastY := if g.firstMouse then F.toFloat ypos else g.lastY
  let firstMouse := if g.firstMouse then false else g.firstMouse
  -- float xoffset = xpos - lastX; float yoffset = lastY - ypos;
  let xoffset := F.toFloat (F.toDouble (xpos - lastX))
  let yoffset := F.toFloat (F.toDouble (lastY - ypos))
  -- lastX = xpos; lastY = ypos;
  let lastX := F.toFloat xpos
  let lastY := F.toFloat ypos
  -- float sensitivity = 0.2;
  let sensitivity : α := F.toFloat (F.toDouble 0.2)
  let xoffset := F.toFloat (xoffset * sensitivity)
  let yoffset := F.toFloat (yoffset * sensitivity)
  let yaw := F.toFloat (g.yaw + xoffset)
  let pitch := F.toFloat (g.pitch + yoffset)
  let pitch := if pitch > 89 then 89 else pitch
  let pitch := if pitch < -89 then -89 else pitch
  let direction := sphericalDir L yaw pitch
  { g with
    lookDir := normalize L direction
    firstMouse := firstMouse
    yaw := yaw
    pitch := pitch
    lastX := lastX
    lastY := lastY }

/-- The globals after a sequence of cursor-move events, oldest first. -/
def runMouse (L : MathLib α) (F : FloatModel α) (g : Globals α) (events : List (α × α)) :
    Globals α :=
  events.foldl (fun s e => mouse_callback L F s e.1 e.2) g

/-- The initial globals with `firstMouse` cleared: the yaw -90, pitch 0, `lastX`
320 and `lastY` 240 that a first cursor event at the window centre `(320, 240)`
leaves. -/
def seededGlobals : Globals α := { (initGlobals : Globals α) with firstMouse := false }

/-- The look direction the frame loop computes from the globals (lines 386-388). -/
def frameLookDir (L : MathLib α) (g : Globals α) : Vec3 α :=
  sphericalDir L g.yaw g.pitch

end Camera

/-- The key code `GLFW_KEY_SPACE`. -/
def GLFW_KEY_SPACE : Int := 32

/-- The action code `GLFW_PRESS`. -/
def GLFW_PRESS : Int := 1

/-- The key callback `key_callback(window, key, scancode, action, mods)`. -/
def key_callback {α : Type} (g : Globals α) (key _scancode action _mods : Int) : Globals α :=
  if key = GLFW_KEY_SPACE ∧ action = GLFW_PRESS then
    { g with normalMappingEnable := !g.normalMappingEnable }
  else g

/-! ## The mesh and the tangent/bitangent loop -/

/-- The `struct Vertex` of `Main.cpp`: position, normal, UV, tangent, bitangent. -/
@[ext]
structure Vertex (α : Type) where
  x : α
  y : α
  z : α
  nx : α
  ny : α
  nz : α
  u : α
  v : α
  tx : α
  ty : α
  tz : α
  btx : α
  bty : α
  btz : α
deriving DecidableEq, Repr

/-- A `glm::vec2`. -/
@[ext]
structure Vec2 (α : Type) where
  x : α
  y : α
deriving DecidableEq, Repr

/-- A `glm::mat2`, stored by columns. -/
@[ext]
structure Mat2 (α : Type) where
  c0 : Vec2 α
  c1 : Vec2 α
deriving DecidableEq, Repr

/-- A `glm::mat2x3` (two columns, three rows), stored by columns. -/
@[ext]
structure Mat2x3 (α : Type) where
  c0 : Vec3 α
  c1 : Vec3 α
deriving DecidableEq, Repr

section Mesh

variable {α : Type} [Field α]

/-- The `operator-(const Vertex&, const Vertex&)` of lines 51-53: the difference
of the two positions. -/
def Vertex.sub (lhs rhs : Vertex α) : Vec3 α :=
  ⟨lhs.x - rhs.x, lhs.y - rhs.y, lhs.z - rhs.z⟩

/-- The tangent stored in a vertex. -/
def Vertex.tangent (p : Vertex α) : Vec3 α := ⟨p.tx, p.ty, p.tz⟩

/-- The bitangent stored in a vertex. -/
def Vertex.bitangent (p : Vertex α) : Vec3 α := ⟨p.btx, p.bty, p.btz⟩

/-- The position stored in a vertex. -/
def Vertex.position (p : Vertex α) : Vec3 α := ⟨p.x, p.y, p.z⟩

/-- The normal stored in a vertex. -/
def Vertex.normal (p : Vertex α) : Vec3 α := ⟨p.nx, p.ny, p.nz⟩

/-- The UV coordinates stored in a vertex. -/
def Vertex.uv (p : Vertex α) : Vec2 α := ⟨p.u, p.v⟩

/-- The six assignments of lines 173-178 on one vertex. -/
def Vertex.setTB (p : Vertex α) (tangent bitangent : Vec3 α) : Vertex α :=
  { p with
    tx := tangent.x
    ty := tangent.y
    tz := tangent.z
    btx := bitangent.x
    bty := bitangent.y
    btz := bitangent.z }

/-- The constructor `glm::mat2(x0, y0, x1, y1)`: columns `(x0, y0)` and `(x1, y1)`. -/
def Mat2.ofEntries (x0 y0 x1 y1 : α) : Mat2 α := ⟨⟨x0, y0⟩, ⟨x1, y1⟩⟩

/-- The product `glm::mat2x3 * glm::mat2` of GLM: column `j` of the result is
`m1[0] * m2[j][0] + m1[1] * m2[j][1]`. -/
def Mat2x3.mulMat2 (m1 : Mat2x3 α) (m2 : Mat2 α) : Mat2x3 α where
  c0 := ⟨m1.c0.x * m2.c0.x + m1.c1.x * m2.c0.y,
         m1.c0.y * m2.c0.x + m1.c1.y * m2.c0.y,
         m1.c0.z * m2.c0.x + m1.c1.z * m2.c0.y⟩
  c1 := ⟨m1.c0.x * m2.c1.x + m1.c1.x * m2.c1.y,
         m1.c0.y * m2.c1.x + m1.c1.y * m2.c1.y,
         m1.c0.z * m2.c1.x + m1.c1.z * m2.c1.y⟩

/-- The product `glm::mat2x3 * scalar` of GLM. -/
def Mat2x3.scale (m : Mat2x3 α) (s : α) : Mat2x3 α :=
  ⟨Vec3.scale m.c0 s, Vec3.scale m.c1 s⟩

/-- The UV determinant `dU1 * dV2 - dU2 * dV1` of a triangle (line 166). -/
def uvDet (p0 p1 p2 : Vertex α) : α :=
  let dU1 := p1.u - p0.u
  let dU2 := p2.u - p0.u
  let dV1 := p1.v - p0.v
  let dV2 := p2.v - p0.v
  dU1 * dV2 - dU2 * dV1

/-- The matrix `TB` of line 167 for the triangle `p0 p1 p2` (lines 160-167), in
exact arithmetic; `tangentMatrixF` is the same computation with every `float`
operation rounded. -/
def tangentMatrix (p0 p1 p2 : Vertex α) : Mat2x3 α :=
  let e1 := Vertex.sub p1 p0
  let e2 := Vertex.sub p2 p0
  let dU1 := p1.u - p0.u
  let dU2 := p2.u - p0.u
  let dV1 := p1.v - p0.v
  let dV2 := p2.v - p0.v
  let c := 1 / (dU1 * dV2 - dU2 * dV1)
  Mat2x3.scale (Mat2x3.mulMat2 ⟨e1, e2⟩ (Mat2.ofEntries dV2 (-dV1) (-dU2) dU1)) c

/-- The tangent of line 168, before it is normalised. -/
def rawTangent (p0 p1 p2 : Vertex α) : Vec3 α :=
  let TB := tangentMatrix p0 p1 p2
  ⟨TB.c0.x, TB.c0.y, TB.c0.z⟩

/-- The bitangent of line 170, before it is normalised. -/
def rawBitangent (p0 p1 p2 : Vertex α) : Vec3 α :=
  let TB := tangentMatrix p0 p1 p2
  ⟨TB.c1.x, TB.c1.y, TB.c1.z⟩

/-- The `operator-` of lines 51-53 with its three `float` subtractions rounded. -/
def Vertex.subF (F : FloatModel α) (lhs rhs : Vertex α) : Vec3 α :=
  ⟨F.toFloat (lhs.x - rhs.x), F.toFloat (lhs.y - rhs.y), F.toFloat (lhs.z - rhs.z)⟩

/-- The product `glm::mat2x3 * glm::mat2` with every `float` product and sum
rounded. -/
def Mat2x3.mulMat2F (F : FloatModel α) (m1 : Mat2x3 α) (m2 : Mat2 α) : Mat2x3 α where
  c0 := ⟨F.toFloat (F.toFloat (m1.c0.x * m2.c0.x) + F.toFloat (m1.c1.x * m2.c0.y)),
         F.toFloat (F.toFloat (m1.c0.y * m2.c0.x) + F.toFloat (m1.c1.y * m2.c0.y)),
         F.toFloat (F.toFloat (m1.c0.z * m2.c0.x) + F.toFloat (m1.c1.z * m2.c0.y))⟩
  c1 := ⟨F.toFloat (F.toFloat (m1.c0.x * m2.c1.x) + F.toFloat (m1.c1.x * m2.c1.y)),
         F.toFloat (F.toFloat (m1.c0.y * m2.c1.x) + F.toFloat (m1.c1.y * m2.c1.y)),
         F.toFloat (F.toFloat (m1.c0.z * m2.c1.x) + F.toFloat (m1.c1.z * m2.c1.y))⟩

/-- The product `glm::mat2x3 * scalar` with every `float` product rounded. -/
def Mat2x3.scaleF (F : FloatModel α) (m : Mat2x3 α) (s : α) : Mat2x3 α :=
  ⟨⟨F.toFloat (m.c0.x * s), F.toFloat (m.c0.y * s), F.toFloat (m.c0.z * s)⟩,
   ⟨F.toFloat (m.c1.x * s), F.toFloat (m.c1.y * s), F.toFloat (m.c1.z * s)⟩⟩

/-- The matrix `TB` of line 167 as `float` arithmetic computes it: lines 160-167
with every operation rounded by `F.toFloat` (the sign changes in `glm::mat2` are
exact).  With `exactArith` this is `tangentMatrix`. -/
def tangentMatrixF (F : FloatModel α) (p0 p1 p2 : Vertex α) : Mat2x3 α :=
  let e1 := Vertex.subF F p1 p0
  let e2 := Vertex.subF F p2 p0
  let dU1 := F.toFloat (p1.u - p0.u)
  let dU2 := F.toFloat (p2.u - p0.u)
  let dV1 := F.toFloat (p1.v - p0.v)
  let dV2 := F.toFloat (p2.v - p0.v)
  let c := F.toFloat (1 / F.toFloat (F.toFloat (dU1 * dV2) - F.toFloat (dU2 * dV1)))
  Mat2x3.scaleF F (Mat2x3.mulMat2F F ⟨e1, e2⟩ (Mat2.ofEntries dV2 (-dV1) (-dU2) dU1)) c

/-- The un-normalised tangent of line 168 as `float` arithmetic computes it. -/
def rawTangentF (F : FloatModel α) (p0 p1 p2 : Vertex α) : Vec3 α :=
  let TB := tangentMatrixF F p0 p1 p2
  ⟨TB.c0.x, TB.c0.y, TB.c0.z⟩

/-- The un-normalised bitangent of line 170 as `float` arithmetic computes it. -/
def rawBitangentF (F : FloatModel α) (p0 p1 p2 : Vertex α) : Vec3 α :=
  let TB := tangentMatrixF F p0 p1 p2
  ⟨TB.c1.x, TB.c1.y, TB.c1.z⟩

/-- The tangent written for the triangle `p0 p1 p2` (lines 168-169). -/
def triTangent (L : MathLib α) (p0 p1 p2 : Vertex α) : Vec3 α :=
  normalize L (rawTangent p0 p1 p2)

/-- The bitangent written for the triangle `p0 p1 p2` (lines 170-171). -/
def triBitangent (L : MathLib α) (p0 p1 p2 : Vertex α) : Vec3 α :=
  normalize L (rawBitangent p0 p1 p2)

/-- The tangent as the specification writes it:
`f * (dV2 * e1 - dV1 * e2)` with `f = 1 / (dU1 * dV2 - dU2 * dV1)`. -/
def specTangent (p0 p1 p2 : Vertex α) : Vec3 α :=
  let e1 := Vertex.sub p1 p0
  let e2 := Vertex.sub p2 p0
  let dV1 := p1.v - p0.v
  let dV2 := p2.v - p0.v
  let f := 1 / uvDet p0 p1 p2
  Vec3.smul f (Vec3.sub (Vec3.smul dV2 e1) (Vec3.smul dV1 e2))

/-- The bitangent as the specification writes it:
`f * (-dU2 * e1 + dU1 * e2)` with `f = 1 / (dU1 * dV2 - dU2 * dV1)`. -/
def specBitangent (p0 p1 p2 : Vertex α) : Vec3 α :=
  let e1 := Vertex.sub p1 p0
  let e2 := Vertex.sub p2 p0
  let dU1 := p1.u - p0.u
  let dU2 := p2.u - p0.u
  let f := 1 / uvDet p0 p1 p2
  Vec3.smul f (Vec3.add (Vec3.smul (-dU2) e1) (Vec3.smul dU1 e2))

/-- The geometric normal `e1 x e2` of the triangle `p0 p1 p2`. -/
def geometricNormal (p0 p1 p2 : Vertex α) : Vec3 α :=
  Vec3.cross (Vertex.sub p1 p0) (Vertex.sub p2 p0)

/-- The read `cubeVertices[cubeIndices[i]]`; `none` when an index is out of
bounds. -/
def readVertex (idx : List Nat) (verts : List (Vertex α)) (i : Nat) : Option (Vertex α) :=
  idx[i]? >>= fun k => verts[k]?

/-- The six writes of lines 173-178 to `cubeVertices[cubeIndices[i]]`; `none`
when an index is out of bounds. -/
def writeVertex (idx : List Nat) (verts : List (Vertex α)) (i : Nat)
    (tangent bitangent : Vec3 α) : Option (List (Vertex α)) :=
  idx[i]? >>= fun k => verts[k]? >>= fun p => some (verts.set k (p.setTB tangent bitangent))

/-- The tangent and bitangent that the loop body computes at loop variable `i`
from the current vertex array (lines 157-171). -/
def triangleTB (L : MathLib α) (idx : List Nat) (verts : List (Vertex α)) (i : Nat) :
    Option (Vec3 α × Vec3 α) := do
  let p0 ← readVertex idx verts i
  let p1 ← readVertex idx verts (i + 1)
  let p2 ← readVertex idx verts (i + 2)
  some (triTangent L p0 p1 p2, triBitangent L p0 p1 p2)

/-- One iteration of the loop of line 156 at loop variable `i` (lines 157-179). -/
def tangentBody (L : MathLib α) (idx : List Nat) (verts : List (Vertex α)) (i : Nat) :
    Option (List (Vertex α)) := do
  let tb ← triangleTB L idx verts i
  let verts ← writeVertex idx verts (i + 0) tb.1 tb.2
  let verts ← writeVertex idx verts (i + 1) tb.1 tb.2
  writeVertex idx verts (i + 2) tb.1 tb.2

/-- The first `k` iterations of the loop of line 156: loop variable
`i = 0, 3, ..., 3 * (k - 1)`. -/
def tangentPassUpTo (L : MathLib α) (idx : List Nat) (verts : List (Vertex α)) (k : Nat) :
    Option (List (Vertex α)) :=
  (List.range k).foldlM (fun vs j => tangentBody L idx vs (3 * j)) verts

/-- The loop `for (int i = 0; i < n; i += 3)` of lines 156-180, with `n` the
number of indices (36 in the program): it runs for every `i = 3 * j < n`. -/
def tangentPass (L : MathLib α) (idx : List Nat) (verts : List (Vertex α)) :
    Option (List (Vertex α)) :=
  tangentPassUpTo L idx verts ((idx.length + 2) / 3)

/-- Triangle `k` of the index list refers to vertex `v`. -/
def refersTo (idx : List Nat) (k v : Nat) : Prop :=
  idx[3 * k]? = some v ∨ idx[3 * k + 1]? = some v ∨ idx[3 * k + 2]? = some v

instance (idx : List Nat) (k v : Nat) : Decidable (refersTo idx k v) := by
  unfold refersTo; infer_instance

end Mesh

/-! ## The cube mesh -/

section Cube

variable {α : Type} [Field α]

/-- A vertex given by the eight initialisers of lines 97-130; the tangent and
bitangent members are left to their zero initialisation. -/
def Vertex.ofPosNormalUV (x y z nx ny nz u v : α) : Vertex α :=
  ⟨x, y, z, nx, ny, nz, u, v, 0, 0, 0, 0, 0, 0⟩

/-- The array `cubeVertices` (lines 94-131). -/
def cubeVertices : List (Vertex α) :=
  [ -- Front
    .ofPosNormalUV (-1) (-1) 1 0 0 1 0 0,
    .ofPosNormalUV 1 (-1) 1 0 0 1 1 0,
    .ofPosNormalUV 1 1 1 0 0 1 1 1,
    .ofPosNormalUV (-1) 1 1 0 0 1 0 1,
    -- Back
    .ofPosNormalUV 1 (-1) (-1) 0 0 (-1) 0 0,
    .ofPosNormalUV (-1) (-1) (-1) 0 0 (-1) 1 0,
    .ofPosNormalUV (-1) 1 (-1) 0 0 (-1) 1 1,
    .ofPosNormalUV 1 1 (-1) 0 0 (-1) 0 1,
    -- Left
    .ofPosNormalUV (-1) (-1) (-1) (-1) 0 0 0 0,
    .ofPosNormalUV (-1) (-1) 1 (-1) 0 0 1 0,
    .ofPosNormalUV (-1) 1 1 (-1) 0 0 1 1,
    .ofPosNormalUV (-1) 1 (-1) (-1) 0 0 0 1,
    -- Right
    .ofPosNormalUV 1 (-1) 1 1 0 0 0 0,
    .ofPosNormalUV 1 (-1) (-1) 1 0 0 1 0,
    .ofPosNormalUV 1 1 (-1) 1 0 0 1 1,
    .ofPosNormalUV 1 1 1 1 0 0 0 1,
    -- Top
    .ofPosNormalUV (-1) 1 1 0 1 0 0 0,
    .ofPosNormalUV 1 1 1 0 1 0 1 0,
    .ofPosNormalUV 1 1 (-1) 0 1 0 1 1,
    .ofPosNormalUV (-1) 1 (-1) 0 1 0 0 1,
    -- Bottom
    .ofPosNormalUV (-1) (-1) (-1) 0 (-1) 0 0 0,
    .ofPosNormalUV 1 (-1) (-1) 0 (-1) 0 1 0,
    .ofPosNormalUV 1 (-1) 1 0 (-1) 0 1 1,
    .ofPosNormalUV (-1) (-1) 1 0 (-1) 0 0 1 ]

/-- The lower-left vertex of the front face, `cubeVertices[0]`. -/
def frontP0 : Vertex α := .ofPosNormalUV (-1) (-1) 1 0 0 1 0 0

/-- The lower-right vertex of the front face, `cubeVertices[1]`. -/
def frontP1 : Vertex α := .ofPosNormalUV 1 (-1) 1 0 0 1 1 0

/-- The upper-right vertex of the front face, `cubeVertices[2]`. -/
def frontP2 : Vertex α := .ofPosNormalUV 1 1 1 0 0 1 1 1

/-- A vertex at the origin with UV `(u, v)` and normal `(0, 0, 1)`: three of
these with UVs `(0, 0)`, `(1, 0)`, `(0, 1)` form a triangle whose positions
coincide while its UV determinant is 1. -/
def originVertex (u v : α) : Vertex α := .ofPosNormalUV 0 0 0 0 0 1 u v

/-- The vertex at `(1, 0, 0)` with UV `(1, 5)`. -/
def skewP1 : Vertex α := .ofPosNormalUV 1 0 0 0 0 1 1 5

/-- The vertex at `(0, 1, 0)` with UV `(5, 1)`: with the origin at UV `(0, 0)`
and `skewP1` it forms a triangle with edges `(1, 0, 0)`, `(0, 1, 0)` and UV
determinant `1 * 1 - 5 * 5 = -24`. -/
def skewP2 : Vertex α := .ofPosNormalUV 0 1 0 0 0 1 5 1

/-- The array `cubeIndices` (lines 134-153). -/
def cubeIndices : List Nat :=
  [ 0, 1, 2, 2, 3, 0,
    4, 5, 6, 6, 7, 4,
    8, 9, 10, 10, 11, 8,
    12, 13, 14, 14, 15, 12,
    16, 17, 18, 18, 19, 16,
    20, 21, 22, 22, 23, 20 ]

/-- The vertex array after the loop of lines 156-180 has run on the cube. -/
def cubeTangentPass (L : MathLib α) : Option (List (Vertex α)) :=
  tangentPass L cubeIndices cubeVertices

/-- The unit vector along which `u` grows on face `f` of the cube (faces in the
order of `cubeVertices`: front, back, left, right, top, bottom). -/
def cubeFaceTangent (f : Nat) : Vec3 α :=
  match f with
  | 1 => ⟨-1, 0, 0⟩
  | 2 => ⟨0, 0, 1⟩
  | 3 => ⟨0, 0, -1⟩
  | _ => ⟨1, 0, 0⟩

/-- The unit vector along which `v` grows on face `f` of the cube. -/
def cubeFaceBitangent (f : Nat) : Vec3 α :=
  match f with
  | 4 => ⟨0, 0, -1⟩
  | 5 => ⟨0, 0, 1⟩
  | _ => ⟨0, 1, 0⟩

/-- The vector `cubePositions` (lines 328-338). -/
def cubePositions : List (Vec3 α) :=
  [ ⟨0.0, 0.0, 0.0⟩,
    ⟨2.0, 5.0, -15.0⟩,
    ⟨-1.5, -2.2, -2.5⟩,
    ⟨-3.8, -2.0, -12.3⟩,
    ⟨2.4, -0.4, -3.5⟩,
    ⟨-1.7, 3.0, -7.5⟩,
    ⟨1.3, -2.0, -2.5⟩,
    ⟨1.5, 2.0, -2.5⟩,
    ⟨1.5, 0.2, -1.5⟩,
    ⟨-1.3, 1.0, -1.5⟩ ]

end Cube

/-! ## 4x4 matrices and the GLM transforms -/

/-- A `glm::vec4`. -/
@[ext]
structure Vec4 (α : Type) where
  x : α
  y : α
  z : α
  w : α
deriving DecidableEq, Repr

/-- A `glm::mat4`, stored by columns. -/
@[ext]
structure Mat4 (α : Type) where
  c0 : Vec4 α
  c1 : Vec4 α
  c2 : Vec4 α
  c3 : Vec4 α
deriving DecidableEq, Repr

section Transforms

variable {α : Type} [Field α]

/-- Componentwise sum on `glm::vec4`. -/
def Vec4.add (a b : Vec4 α) : Vec4 α := ⟨a.x + b.x, a.y + b.y, a.z + b.z, a.w + b.w⟩

/-- Vector times scalar on `glm::vec4`. -/
def Vec4.scale (v : Vec4 α) (s : α) : Vec4 α := ⟨v.x * s, v.y * s, v.z * s, v.w * s⟩

/-- The constructor `glm::mat4(s)`: `s` on the diagonal, zero elsewhere. -/
def Mat4.ofScalar (s : α) : Mat4 α :=
  ⟨⟨s, 0, 0, 0⟩, ⟨0, s, 0, 0⟩, ⟨0, 0, s, 0⟩, ⟨0, 0, 0, s⟩⟩

/-- The function `glm::translate(m, v)`: the last column becomes
`m[0] * v[0] + m[1] * v[1] + m[2] * v[2] + m[3]`. -/
def translate (m : Mat4 α) (v : Vec3 α) : Mat4 α :=
  { m with
    c3 := Vec4.add (Vec4.add (Vec4.add (Vec4.scale m.c0 v.x) (Vec4.scale m.c1 v.y))
            (Vec4.scale m.c2 v.z)) m.c3 }

/-- The function `glm::rotate(m, angle, v)` with `angle` in radians. -/
def rotate (L : MathLib α) (m : Mat4 α) (angle : α) (v : Vec3 α) : Mat4 α :=
  let a := angle
  let c := L.cos a
  let s := L.sin a
  let axis := normalize L v
  let temp := Vec3.scale axis (1 - c)
  let r00 := c + temp.x * axis.x
  let r01 := temp.x * axis.y + s * axis.z
  let r02 := temp.x * axis.z - s * axis.y
  let r10 := temp.y * axis.x - s * axis.z
  let r11 := c + temp.y * axis.y
  let r12 := temp.y * axis.z + s * axis.x
  let r20 := temp.z * axis.x + s * axis.y
  let r21 := temp.z * axis.y - s * axis.x
  let r22 := c + temp.z * axis.z
  { c0 := Vec4.add (Vec4.add (Vec4.scale m.c0 r00) (Vec4.scale m.c1 r01)) (Vec4.scale m.c2 r02)
    c1 := Vec4.add (Vec4.add (Vec4.scale m.c0 r10) (Vec4.scale m.c1 r11)) (Vec4.scale m.c2 r12)
    c2 := Vec4.add (Vec4.add (Vec4.scale m.c0 r20) (Vec4.scale m.c1 r21)) (Vec4.scale m.c2 r22)
    c3 := m.c3 }

/-- The function `glm::scale(m, v)`: column `j < 3` is multiplied by `v[j]`. -/
def scale (m : Mat4 α) (v : Vec3 α) : Mat4 α :=
  ⟨Vec4.scale m.c0 v.x, Vec4.scale m.c1 v.y, Vec4.scale m.c2 v.z, m.c3⟩

/-- The body of the draw loop that builds `modelMatrix` for loop variable `i`
and position `cubePositions[i] = pos` (lines 458-463). -/
def modelMatrixAt (L : MathLib α) (pos : Vec3 α) (i : Nat) : Mat4 α :=
  let modelMatrix := Mat4.ofScalar 1
  let modelMatrix := translate modelMatrix pos
  let angle : α := 20.0 * (i : α)
  let modelMatrix := rotate L modelMatrix (radians L angle) (normalize L ⟨1.0, 1.0, 1.0⟩)
  scale modelMatrix ⟨0.5, 0.5, 0.5⟩

/-- The `modelMatrix` of the draw loop at loop variable `i`; `none` when
`cubePositions[i]` is out of bounds. -/
def modelMatrix (L : MathLib α) (i : Nat) : Option (Mat4 α) :=
  (cubePositions[i]?).map (fun pos => modelMatrixAt L pos i)

/-- The model matrices of one frame, in draw order: the loop
`for (int i = 0; i < cubePositions.size(); ++i)` of line 456. -/
def modelMatrices (L : MathLib α) : List (Mat4 α) :=
  (cubePositions : List (Vec3 α)).mapIdx (fun i pos => modelMatrixAt L pos i)

/-- The matrix product `m1 * m2` on `glm::mat4`: column `j` of the result is
`m1[0] * m2[j][0] + m1[1] * m2[j][1] + m1[2] * m2[j][2] + m1[3] * m2[j][3]`. -/
def Mat4.mul (m1 m2 : Mat4 α) : Mat4 α :=
  let col (v : Vec4 α) : Vec4 α :=
    Vec4.add (Vec4.add (Vec4.add (Vec4.scale m1.c0 v.x) (Vec4.scale m1.c1 v.y))
      (Vec4.scale m1.c2 v.z)) (Vec4.scale m1.c3 v.w)
  ⟨col m2.c0, col m2.c1, col m2.c2, col m2.c3⟩

/-- The homogeneous translation matrix `T(v)`: the identity with last column
`(v, 1)`. -/
def translationMatrix (v : Vec3 α) : Mat4 α :=
  ⟨⟨1, 0, 0, 0⟩, ⟨0, 1, 0, 0⟩, ⟨0, 0, 1, 0⟩, ⟨v.x, v.y, v.z, 1⟩⟩

/-- The homogeneous scale matrix `S(v)`: the diagonal matrix `diag(v, 1)`. -/
def scaleMatrix (v : Vec3 α) : Mat4 α :=
  ⟨⟨v.x, 0, 0, 0⟩, ⟨0, v.y, 0, 0⟩, ⟨0, 0, v.z, 0⟩, ⟨0, 0, 0, 1⟩⟩

/-- The homogeneous rotation matrix `R(angle, n)` about the unit axis `n`, by
the axis-angle formula `cos θ I + (1 - cos θ) n nᵀ + sin θ [n]×`, where `[n]×` is
the cross-product matrix of `n`. -/
def rotationMatrix (L : MathLib α) (angle : α) (n : Vec3 α) : Mat4 α :=
  let c := L.cos angle
  let s := L.sin angle
  -- entry `(row, column)` of the 3x3 block
  let r (ni nj cr : α) (diag : α) : α := diag * c + (1 - c) * ni * nj + s * cr
  ⟨⟨r n.x n.x 0 1, r n.y n.x n.z 0, r n.z n.x (-n.y) 0, 0⟩,
   ⟨r n.x n.y (-n.z) 0, r n.y n.y 0 1, r n.z n.y n.x 0, 0⟩,
   ⟨r n.x n.z n.y 0, r n.y n.z (-n.x) 0, r n.z n.z 0 1, 0⟩,
   ⟨0, 0, 0, 1⟩⟩

end Transforms

/-! ## The per-frame update -/

/-- The four movement keys polled by the frame loop: `true` when
`glfwGetKey` returns `GLFW_PRESS`. -/
structure Keys where
  a : Bool
  d : Bool
  w : Bool
  s : Bool

/-- The uniforms `dirLight.*`. -/
@[ext]
structure DirLight (α : Type) where
  direction : Vec3 α
  ambient : Vec3 α
  diffuse : Vec3 α
  specular : Vec3 α

/-- The uniforms `pointLight.*`. -/
@[ext]
structure PointLight (α : Type) where
  position : Vec3 α
  ambient : Vec3 α
  diffuse : Vec3 α
  specular : Vec3 α
  kConstant : α
  kLinear : α
  kQuadratic : α

/-- The uniforms `spotLight.*`. -/
@[ext]
structure SpotLight (α : Type) where
  position : Vec3 α
  direction : Vec3 α
  ambient : Vec3 α
  diffuse : Vec3 α
  specular : Vec3 α
  kConstant : α
  kLinear : α
  kQuadratic : α
  cutOffAngle : α

/-- What one iteration of the frame loop leaves behind: the globals, the eye
position, and the uniforms and model matrices it passes to the shader.  The view
and projection matrices and the texture bindings are not modelled. -/
structure Frame (α : Type) where
  globals : Globals α
  eyePosition : Vec3 α
  eyePos : Vec3 α
  dirLight : DirLight α
  pointLight : PointLight α
  spotLight : SpotLight α
  normalMappingEnable : Int
  modelMatrices : List (Mat4 α)

section FrameLoop

variable {α : Type} [LinearOrderedField α]

/-- The initial value of the local `eyePosition` (line 318). -/
def initEyePosition : Vec3 α := ⟨0.0, 0.0, 10.0⟩

/-- No movement key held. -/
def noKeys : Keys := ⟨false, false, false, false⟩

/-- The camera movement of lines 392-410. -/
def moveEye (lookDir : Vec3 α) (keys : Keys) (movementSpeed deltaTime : α)
    (eyePosition : Vec3 α) : Vec3 α :=
  let rightVec := Vec3.cross lookDir ⟨0.0, 1.0, 0.0⟩
  let eyePosition :=
    if keys.a then Vec3.sub eyePosition (Vec3.scale (Vec3.scale rightVec movementSpeed) deltaTime)
    else eyePosition
  let eyePosition :=
    if keys.d then Vec3.add eyePosition (Vec3.scale (Vec3.scale rightVec movementSpeed) deltaTime)
    else eyePosition
  let eyePosition :=
    if keys.w then Vec3.add eyePosition (Vec3.scale (Vec3.scale lookDir movementSpeed) deltaTime)
    else eyePosition
  let eyePosition :=
    if keys.s then Vec3.sub eyePosition (Vec3.scale (Vec3.scale lookDir movementSpeed) deltaTime)
    else eyePosition
  eyePosition

/-- One iteration of the frame loop (lines 341-529) from the globals `g` and the
eye position `eyePosition`, with the keys `keys` held and `deltaTime` seconds
since the previous frame. -/
def frame (L : MathLib α) (g : Globals α) (eyePosition : Vec3 α) (keys : Keys)
    (deltaTime : α) : Frame α :=
  let movementSpeed : α := 10.0
  -- lines 386-388
  let lookDir := frameLookDir L g
  let eyePosition := moveEye lookDir keys movementSpeed deltaTime eyePosition
  { globals := { g with lookDir := lookDir }
    eyePosition := eyePosition
    eyePos := eyePosition
    dirLight :=
      { direction := lookDir
        ambient := ⟨0.05, 0.05, 0.05⟩
        diffuse := ⟨1.0, 1.0, 1.0⟩
        specular := ⟨1.0, 1.0, 1.0⟩ }
    pointLight :=
      { position := ⟨0.0, 0.0, 0.0⟩
        ambient := ⟨0.01, 0.01, 0.01⟩
        diffuse := ⟨1.0, 1.0, 1.0⟩
        specular := ⟨1.0, 1.0, 1.0⟩
        kConstant := 1.0
        kLinear := 0.09
        kQuadratic := 0.032 }
    spotLight :=
      { position := eyePosition
        direction := lookDir
        ambient := ⟨0.1, 0.1, 0.1⟩
        diffuse := ⟨1.0, 1.0, 1.0⟩
        specular := ⟨1.0, 1.0, 1.0⟩
        kConstant := 1.0
        kLinear := 0.09
        kQuadratic := 0.032
        cutOffAngle := radians L 12.5 }
    normalMappingEnable := if g.normalMappingEnable then 1 else 0
    modelMatrices := modelMatrices L }

end FrameLoop

/-! ## Lemmas on the camera -/

section CameraLemmas

variable {α : Type} [LinearOrderedField α]

/-- The two `if` statements of lines 559-562 leave a value in `[-89, 89]`. -/
theorem clamp_range (p : α) :
    -89 ≤ (if (if p > 89 then 89 else p) < -89 then -89 else (if p > 89 then 89 else p)) ∧
    (if (if p > 89 then 89 else p) < -89 then -89 else (if p > 89 then 89 else p)) ≤ 89 := by
  split_ifs <;> constructor <;> linarith

/-- The two `if` statements of lines 559-562 compute `max (-89) (min p 89)`. -/
theorem clamp_eq (p : α) :
    (if (if p > 89 then 89 else p) < -89 then -89 else (if p > 89 then 89 else p)) =
      max (-89) (min p 89) := by
  have h : (-89 : α) ≤ 89 := by norm_num
  split_ifs with h1 h2 h2
  · linarith
  · rw [min_eq_right (le_of_lt h1), max_eq_right h]
  · rw [min_eq_left (not_lt.mp h1), max_eq_left (le_of_lt h2)]
  · rw [min_eq_left (not_lt.mp h1), max_eq_right (not_lt.mp h2)]

/-- The pitch after any call of `mouse_callback` lies in `[-89, 89]`, however the
arithmetic rounds. -/
theorem mouse_callback_pitch_range (L : MathLib α) (F : FloatModel α) (g : Globals α)
    (xpos ypos : α) :
    -89 ≤ (mouse_callback L F g xpos ypos).pitch ∧ (mouse_callback L F g xpos ypos).pitch ≤ 89 := by
  simp only [mouse_callback]
  exact clamp_range _

theorem runMouse_append (L : MathLib α) (F : FloatModel α) (g : Globals α) (es : List (α × α))
    (e : α × α) :
    runMouse L F g (es ++ [e]) = mouse_callback L F (runMouse L F g es) e.1 e.2 := by
  simp [runMouse, List.foldl_append]

theorem runMouse_take_succ (L : MathLib α) (F : FloatModel α) (g : Globals α)
    (events : List (α × α)) (n : Nat) (hn : n < events.length) :
    runMouse L F g (events.take (n + 1)) =
      mouse_callback L F (runMouse L F g (events.take n)) events[n].1 events[n].2 := by
  rw [List.take_succ, List.getElem?_eq_getElem hn]
  exact runMouse_append L F g (events.take n) events[n]

/-- C1. Starting from the initial globals (yaw -90, pitch 0, `firstMouse` set),
after each of the first `n >= 1` cursor-move events of any sequence the pitch
lies in `[-89, 89]`, in exact arithmetic and in any rounded arithmetic. -/
theorem pitch_in_range_after_every_event (L : MathLib α) (F : FloatModel α)
    (events : List (α × α)) (n : Nat) (h1 : 1 ≤ n) (hn : n ≤ events.length) :
    -89 ≤ (runMouse L F initGlobals (events.take n)).pitch ∧
      (runMouse L F initGlobals (events.take n)).pitch ≤ 89 := by
  obtain ⟨m, rfl⟩ : ∃ m, n = m + 1 := ⟨n - 1, by omega⟩
  rw [runMouse_take_succ L F initGlobals events m (by omega)]
  exact mouse_callback_pitch_range L F _ _ _

theorem pitch_in_range_after_every_event_witness :
    1 ≤ 2 ∧ 2 ≤ [((400 : ℝ), (300 : ℝ)), (400, -5000)].length ∧
    (-89 ≤ (runMouse realLib ieee initGlobals
        (List.take 2 [((400 : ℝ), (300 : ℝ)), (400, -5000)])).pitch ∧
      (runMouse realLib ieee initGlobals
        (List.take 2 [((400 : ℝ), (300 : ℝ)), (400, -5000)])).pitch ≤ 89) :=
  ⟨by decide, by decide,
    pitch_in_range_after_every_event realLib ieee [((400 : ℝ), (300 : ℝ)), (400, -5000)] 2
      (by decide) (by decide)⟩

/-- What `mouse_callback` stores on an event that is not the first, operation by
operation. -/
theorem mouse_callback_later (L : MathLib α) (F : FloatModel α) (g : Globals α) (xpos ypos : α)
    (hfirst : g.firstMouse = false) :
    (mouse_callback L F g xpos ypos).yaw =
      F.toFloat (g.yaw +
        F.toFloat (F.toFloat (F.toDouble (xpos - g.lastX)) * F.toFloat (F.toDouble 0.2))) ∧
    (mouse_callback L F g xpos ypos).pitch =
      max (-89) (min (F.toFloat (g.pitch +
        F.toFloat (F.toFloat (F.toDouble (g.lastY - ypos)) * F.toFloat (F.toDouble 0.2)))) 89) := by
  constructor
  · simp only [mouse_callback, hfirst]
    simp only [Bool.false_eq_true, if_false]
  · simp only [mouse_callback, hfirst]
    simp only [Bool.false_eq_true, if_false]
    rw [clamp_eq]

/-- What `mouse_callback` stores on the first event, operation by operation. -/
theorem mouse_callback_first (L : MathLib α) (F : FloatModel α) (g : Globals α) (xpos ypos : α)
    (hfirst : g.firstMouse = true) :
    (mouse_callback L F g xpos ypos).yaw =
      F.toFloat (g.yaw +
        F.toFloat (F.toFloat (F.toDouble (xpos - F.toFloat xpos)) * F.toFloat (F.toDouble 0.2))) ∧
    (mouse_callback L F g xpos ypos).pitch =
      max (-89) (min (F.toFloat (g.pitch +
        F.toFloat (F.toFloat (F.toDouble (F.toFloat ypos - ypos)) *
          F.toFloat (F.toDouble 0.2)))) 89) ∧
    (mouse_callback L F g xpos ypos).lastX = F.toFloat xpos ∧
    (mouse_callback L F g xpos ypos).lastY = F.toFloat ypos ∧
    (mouse_callback L F g xpos ypos).firstMouse = false := by
  refine ⟨?_, ?_, ?_, ?_, ?_⟩
  · simp only [mouse_callback, hfirst, if_true]
  · simp only [mouse_callback, hfirst, if_true]
    rw [clamp_eq]
  · simp only [mouse_callback]
  · simp only [mouse_callback]
  · simp only [mouse_callback, hfirst, if_true]

/-- C9, as the code has it. On the first event (`firstMouse` set)
`mouse_callback` stores the cursor position, rounded to `float`, in `lastX` and
`lastY` and clears `firstMouse`, whatever `lastX` and `lastY` held.  When the
cursor position, the yaw and the pitch are `float` values (rounding leaves them
unchanged, as it leaves 0) and the pitch is in `[-89, 89]`, the event has a zero
delta: yaw and pitch are unchanged and `lastX = xpos`, `lastY = ypos`. -/
theorem mouse_callback_first_event (L : MathLib α) (F : FloatModel α) (g : Globals α)
    (xpos ypos : α) (hfirst : g.firstMouse = true) :
    (mouse_callback L F g xpos ypos).lastX = F.toFloat xpos ∧
    (mouse_callback L F g xpos ypos).lastY = F.toFloat ypos ∧
    (mouse_callback L F g xpos ypos).firstMouse = false ∧
    (F.toFloat xpos = xpos → F.toFloat ypos = ypos → F.toDouble 0 = 0 → F.toFloat 0 = 0 →
      F.toFloat g.yaw = g.yaw → F.toFloat g.pitch = g.pitch → -89 ≤ g.pitch → g.pitch ≤ 89 →
      (mouse_callback L F g xpos ypos).yaw = g.yaw ∧
      (mouse_callback L F g xpos ypos).pitch = g.pitch ∧
      (mouse_callback L F g xpos ypos).lastX = xpos ∧
      (mouse_callback L F g xpos ypos).lastY = ypos) := by
  obtain ⟨hyaw, hpitch, hx, hy, hf⟩ := mouse_callback_first L F g xpos ypos hfirst
  refine ⟨hx, hy, hf, ?_⟩
  intro rx ry d0 f0 ryaw rpitch hlo hhi
  refine ⟨?_, ?_, by rw [hx, rx], by rw [hy, ry]⟩
  · rw [hyaw, rx, sub_self, d0, f0, zero_mul, f0, add_zero, ryaw]
  · rw [hpitch, ry, sub_self, d0, f0, zero_mul, f0, add_zero, rpitch, min_eq_left hhi,
      max_eq_right hlo]

end CameraLemmas

/-! ## Rounding to the nearest representable number -/

section RoundingLemmas

variable {α : Type} [LinearOrderedField α] [FloorRing α]

theorem roundNearestEven_zero (prec : Nat) : roundNearestEven prec (0 : α) = 0 := by
  simp [roundNearestEven]

theorem log_eq_of_bounds (x : α) (E : Int) (hlo : (2 : α) ^ E ≤ |x|)
    (hhi : |x| < (2 : α) ^ (E + 1)) : Int.log 2 |x| = E := by
  have hpos : (0 : α) < |x| := lt_of_lt_of_le (zpow_pos (by norm_num) E) hlo
  have h1 : E ≤ Int.log 2 |x| := by
    rw [← Int.zpow_le_iff_le_log (by norm_num) hpos]
    simpa using hlo
  have h2 : Int.log 2 |x| < E + 1 := by
    rw [← Int.lt_zpow_iff_log_lt (by norm_num) hpos]
    simpa using hhi
  omega

/-- Evaluation of the rounding: if `2 ^ (e + prec - 1) ≤ |x| < 2 ^ (e + prec)`, so
that the spacing around `x` is `2 ^ e`, and `x` is less than half a spacing away
from `m * 2 ^ e`, then `x` rounds to `m * 2 ^ e`. -/
theorem roundNearestEven_eq (prec : Nat) (x : α) (m e : Int)
    (hlo : (2 : α) ^ (e + ((prec : Int) - 1)) ≤ |x|)
    (hhi : |x| < (2 : α) ^ (e + ((prec : Int) - 1) + 1))
    (hnear : |x - (m : α) * (2 : α) ^ e| < (2 : α) ^ e / 2) :
    roundNearestEven prec x = (m : α) * (2 : α) ^ e := by
  have hpow : (0 : α) < (2 : α) ^ e := zpow_pos (by norm_num) e
  have hx : x ≠ 0 := by
    intro h
    rw [h, abs_zero] at hlo
    exact absurd hlo (not_le.mpr (zpow_pos (by norm_num) _))
  have hlog := log_eq_of_bounds x _ hlo hhi
  have hulp : (2 : α) ^ (Int.log 2 |x| - ((prec : Int) - 1)) = (2 : α) ^ e := by
    rw [hlog]; congr 1; ring
  have hq : |x / (2 : α) ^ e - (m : α)| < 1 / 2 := by
    have : x / (2 : α) ^ e - (m : α) = (x - (m : α) * (2 : α) ^ e) / (2 : α) ^ e := by
      field_simp
      ring
    rw [this, abs_div, abs_of_pos hpow, div_lt_iff₀ hpow]
    linarith
  rw [abs_lt] at hq
  simp only [roundNearestEven, if_neg hx, hulp]
  congr 1
  norm_cast
  by_cases hf : (m : α) ≤ x / (2 : α) ^ e
  · have hfl : Int.floor (x / (2 : α) ^ e) = m := by
      rw [Int.floor_eq_iff]; constructor <;> linarith
    rw [hfl, if_pos (by linarith)]
  · have hfl : Int.floor (x / (2 : α) ^ e) = m - 1 := by
      rw [Int.floor_eq_iff]; push_cast; constructor <;> linarith
    rw [hfl]
    push_cast
    rw [if_neg (by linarith), if_pos (by linarith)]
    ring

/-- A number `m * 2 ^ e` with `|m| < 2 ^ prec` is representable: rounding leaves
it unchanged. -/
theorem roundNearestEven_fix (prec : Nat) (m e : Int) (hm : |m| < 2 ^ prec) :
    roundNearestEven prec ((m : α) * (2 : α) ^ e) = (m : α) * (2 : α) ^ e := by
  by_cases hm0 : m = 0
  · subst hm0; simp [roundNearestEven_zero]
  have hpow : (0 : α) < (2 : α) ^ e := zpow_pos (by norm_num) e
  have hxpos : (0 : α) < |(m : α) * (2 : α) ^ e| := by
    rw [abs_pos]; exact mul_ne_zero (Int.cast_ne_zero.mpr hm0) hpow.ne.symm
  have hE1 := @Int.zpow_log_le_self α _ _ 2 _ (by norm_num) hxpos
  have hE2 := @Int.lt_zpow_succ_log_self α _ _ 2 (by norm_num) (|(m : α) * (2 : α) ^ e|)
  simp only [Nat.cast_ofNat] at hE1 hE2
  generalize Int.log 2 |(m : α) * (2 : α) ^ e| = E at hE1 hE2
  have hmα : |(m : α)| < (2 : α) ^ (prec : Int) := by
    have : ((|m| : Int) : α) < ((2 ^ prec : Int) : α) := Int.cast_lt.mpr hm
    simpa using this
  have hlt : (2 : α) ^ E < (2 : α) ^ ((prec : Int) + e) := by
    calc (2 : α) ^ E ≤ |(m : α) * (2 : α) ^ e| := hE1
      _ = |(m : α)| * (2 : α) ^ e := by rw [abs_mul, abs_of_pos hpow]
      _ < (2 : α) ^ (prec : Int) * (2 : α) ^ e := mul_lt_mul_of_pos_right hmα hpow
      _ = (2 : α) ^ ((prec : Int) + e) := by rw [zpow_add₀ (by norm_num)]
  have hEe : E < (prec : Int) + e := (zpow_lt_zpow_iff_right₀ (by norm_num)).mp hlt
  obtain ⟨d, hd⟩ : ∃ d : Nat, (d : Int) = e - (E - ((prec : Int) - 1)) :=
    ⟨(e - (E - ((prec : Int) - 1))).toNat, Int.toNat_of_nonneg (by omega)⟩
  have hval : ((m * 2 ^ d : Int) : α) * (2 : α) ^ (E - ((prec : Int) - 1)) =
      (m : α) * (2 : α) ^ e := by
    have he : e = (d : Int) + (E - ((prec : Int) - 1)) := by omega
    push_cast
    conv_rhs => rw [he, zpow_add₀ (by norm_num : (2 : α) ≠ 0), zpow_natCast]
    ring
  have h := roundNearestEven_eq prec ((m : α) * (2 : α) ^ e) (m * 2 ^ d) (E - ((prec : Int) - 1))
    (by rw [show E - ((prec : Int) - 1) + ((prec : Int) - 1) = E by ring]; exact hE1)
    (by rw [show E - ((prec : Int) - 1) + ((prec : Int) - 1) + 1 = E + 1 by ring]; exact hE2)
    (by rw [hval, sub_self, abs_zero]; exact half_pos (zpow_pos (by norm_num) _))
  rw [h, hval]

end RoundingLemmas

/-! ## The cursor callback in binary32 arithmetic -/

theorem toFloat_zero : (ieee : FloatModel ℝ).toFloat 0 = 0 := roundNearestEven_zero 24

theorem toDouble_zero : (ieee : FloatModel ℝ).toDouble 0 = 0 := roundNearestEven_zero 53

/-- The `double` literal `0.2`. -/
theorem toDouble_literal :
    (ieee : FloatModel ℝ).toDouble 0.2 = 3602879701896397 / 18014398509481984 := by
  have h := roundNearestEven_eq 53 (0.2 : ℝ) 7205759403792794 (-55)
    (by norm_num [le_abs]) (by norm_num [abs_lt]) (by norm_num [abs_lt])
  show roundNearestEven 53 (0.2 : ℝ) = _
  rw [h]; norm_num

/-- The `float` variable `sensitivity` holds `13421773 / 2 ^ 26`, a little more
than `0.2`. -/
theorem sensitivity_binary32 :
    (ieee : FloatModel ℝ).toFloat (ieee.toDouble 0.2) = 13421773 / 67108864 := by
  have h := roundNearestEven_eq 24 (3602879701896397 / 18014398509481984 : ℝ) 13421773 (-26)
    (by norm_num [le_abs]) (by norm_num [abs_lt]) (by norm_num [abs_lt])
  rw [toDouble_literal]
  show roundNearestEven 24 (3602879701896397 / 18014398509481984 : ℝ) = _
  rw [h]; norm_num

/-- C8 fails as stated. After a first event at `(320, 240)` (yaw -90, `lastX`
320), the event `(321, 240)` has delta `(1, 0)`; in binary32 the callback stores
the yaw `-5885133 / 65536 = -89.80000305...`, not `-90 + 0.2 * 1 = -89.8`. -/
theorem later_event_yaw_is_rounded :
    (seededGlobals : Globals ℝ).firstMouse = false ∧
    (mouse_callback realLib ieee seededGlobals 321 240).yaw = -5885133 / 65536 ∧
    (mouse_callback realLib ieee seededGlobals 321 240).yaw ≠
      (seededGlobals : Globals ℝ).yaw + 0.2 * (321 - (seededGlobals : Globals ℝ).lastX) := by
  have e1 : (321 : ℝ) - (seededGlobals : Globals ℝ).lastX = 1 := by
    norm_num [seededGlobals, initGlobals, windowWidth]
  have d1 : (ieee : FloatModel ℝ).toDouble 1 = 1 := by
    have h := @roundNearestEven_fix ℝ _ _ 53 1 0 (by norm_num)
    simpa [ieee] using h
  have f1 : (ieee : FloatModel ℝ).toFloat 1 = 1 := by
    have h := @roundNearestEven_fix ℝ _ _ 24 1 0 (by norm_num)
    simpa [ieee] using h
  have fs : (ieee : FloatModel ℝ).toFloat (1 * (13421773 / 67108864)) = 13421773 / 67108864 := by
    have h := @roundNearestEven_fix ℝ _ _ 24 13421773 (-26) (by norm_num)
    norm_num at h
    rw [one_mul]
    exact h
  have fy : (ieee : FloatModel ℝ).toFloat ((seededGlobals : Globals ℝ).yaw + 13421773 / 67108864)
      = -5885133 / 65536 := by
    have h := roundNearestEven_eq 24 ((-90 : ℝ) + 13421773 / 67108864) (-11770266) (-17)
      (by norm_num [le_abs]) (by norm_num [abs_lt]) (by norm_num [abs_lt])
    show roundNearestEven 24 ((-90 : ℝ) + 13421773 / 67108864) = _
    rw [h]; norm_num
  have hyaw : (mouse_callback realLib ieee seededGlobals 321 240).yaw = -5885133 / 65536 := by
    rw [(mouse_callback_later realLib ieee seededGlobals 321 240 rfl).1, e1, d1, f1,
      sensitivity_binary32, fs, fy]
  refine ⟨rfl, hyaw, ?_⟩
  rw [hyaw, e1]
  norm_num [seededGlobals, initGlobals]

theorem toDouble_ten : (ieee : FloatModel ℝ).toDouble 10 = 10 := by
  have h := @roundNearestEven_fix ℝ _ _ 53 10 0 (by norm_num)
  simpa [ieee] using h

theorem toFloat_ten : (ieee : FloatModel ℝ).toFloat 10 = 10 := by
  have h := @roundNearestEven_fix ℝ _ _ 24 10 0 (by norm_num)
  simpa [ieee] using h

/-- In binary32 the product of the delta 10 with the stored sensitivity,
`2.0000000298...`, rounds to exactly 2. -/
theorem toFloat_ten_sensitivity :
    (ieee : FloatModel ℝ).toFloat (10 * (13421773 / 67108864)) = 2 := by
  have h := roundNearestEven_eq 24 ((10 : ℝ) * (13421773 / 67108864)) 8388608 (-22)
    (by norm_num [le_abs]) (by norm_num [abs_lt]) (by norm_num [abs_lt])
  show roundNearestEven 24 ((10 : ℝ) * (13421773 / 67108864)) = _
  rw [h]; norm_num

/-- C8, as the code has it. On an event that is not the first, `mouse_callback`
stores as yaw the rounded sum of the yaw and the rounded product of the rounded
cursor delta `xpos - lastX` with the `float` nearest to `0.2`, with no clamping
or wrapping, and as pitch the like sum for `lastY - ypos` clamped to
`[-89, 89]`.  In exact arithmetic these are `yaw + 0.2 * (xpos - lastX)` and
`pitch + 0.2 * (lastY - ypos)` clamped to `[-89, 89]`.  For a delta of `(10, 0)`
and a pitch in `[-89, 89]`: in exact arithmetic the yaw grows by exactly `2` and
the pitch is unchanged; in binary32 the yaw becomes `yaw + 2` rounded to `float`
and a pitch that is a `float` value is unchanged. -/
theorem mouse_callback_later_event (L : MathLib ℝ) (F : FloatModel ℝ) (g : Globals ℝ)
    (xpos ypos : ℝ) (hfirst : g.firstMouse = false) :
    (mouse_callback L F g xpos ypos).yaw =
      F.toFloat (g.yaw +
        F.toFloat (F.toFloat (F.toDouble (xpos - g.lastX)) * F.toFloat (F.toDouble 0.2))) ∧
    (mouse_callback L F g xpos ypos).pitch =
      max (-89) (min (F.toFloat (g.pitch +
        F.toFloat (F.toFloat (F.toDouble (g.lastY - ypos)) * F.toFloat (F.toDouble 0.2)))) 89) ∧
    (mouse_callback L exactArith g xpos ypos).yaw = g.yaw + 0.2 * (xpos - g.lastX) ∧
    (mouse_callback L exactArith g xpos ypos).pitch =
      max (-89) (min (g.pitch + 0.2 * (g.lastY - ypos)) 89) ∧
    (xpos - g.lastX = 10 → g.lastY - ypos = 0 → -89 ≤ g.pitch → g.pitch ≤ 89 →
      (mouse_callback L exactArith g xpos ypos).yaw = g.yaw + 2.0 ∧
      (mouse_callback L exactArith g xpos ypos).pitch = g.pitch ∧
      (mouse_callback L ieee g xpos ypos).yaw = ieee.toFloat (g.yaw + 2.0) ∧
      (ieee.toFloat g.pitch = g.pitch → (mouse_callback L ieee g xpos ypos).pitch = g.pitch)) := by
  have hF := mouse_callback_later L F g xpos ypos hfirst
  have hE := mouse_callback_later L exactArith g xpos ypos hfirst
  have hI := mouse_callback_later L ieee g xpos ypos hfirst
  have hyaw : (mouse_callback L exactArith g xpos ypos).yaw = g.yaw + 0.2 * (xpos - g.lastX) := by
    rw [hE.1]
    simp only [exactArith, id]
    ring
  have hpitch : (mouse_callback L exactArith g xpos ypos).pitch =
      max (-89) (min (g.pitch + 0.2 * (g.lastY - ypos)) 89) := by
    rw [hE.2]
    simp only [exactArith, id]
    rw [mul_comm]
  refine ⟨hF.1, hF.2, hyaw, hpitch, ?_⟩
  intro hdx hdy hlo hhi
  refine ⟨?_, ?_, ?_, ?_⟩
  · rw [hyaw, hdx]; norm_num
  · rw [hpitch, hdy, mul_zero, add_zero, min_eq_left hhi, max_eq_right hlo]
  · rw [hI.1, hdx, toDouble_ten, toFloat_ten, sensitivity_binary32, toFloat_ten_sensitivity]
    norm_num
  · intro hp
    rw [hI.2, hdy, toDouble_zero, toFloat_zero, zero_mul, toFloat_zero, add_zero, hp,
      min_eq_left hhi, max_eq_right hlo]

theorem mouse_callback_later_event_witness :
    (seededGlobals : Globals ℝ).firstMouse = false ∧
    (330 : ℝ) - (seededGlobals : Globals ℝ).lastX = 10 ∧
    (seededGlobals : Globals ℝ).lastY - 240 = 0 ∧
    (-89 ≤ (seededGlobals : Globals ℝ).pitch ∧ (seededGlobals : Globals ℝ).pitch ≤ 89) ∧
    (mouse_callback realLib ieee seededGlobals 330 240).yaw = -88 ∧
    (mouse_callback realLib ieee seededGlobals 330 240).pitch = 0 := by
  have e10 : (330 : ℝ) - (seededGlobals : Globals ℝ).lastX = 10 := by
    norm_num [seededGlobals, initGlobals, windowWidth]
  have e0 : (seededGlobals : Globals ℝ).lastY - 240 = 0 := by
    norm_num [seededGlobals, initGlobals, windowHeight]
  have hlo : -89 ≤ (seededGlobals : Globals ℝ).pitch := by norm_num [seededGlobals, initGlobals]
  have hhi : (seededGlobals : Globals ℝ).pitch ≤ 89 := by norm_num [seededGlobals, initGlobals]
  have h := (mouse_callback_later_event realLib ieee seededGlobals 330 240 rfl).2.2.2.2
    e10 e0 hlo hhi
  have fy : (ieee : FloatModel ℝ).toFloat ((seededGlobals : Globals ℝ).yaw + 2.0) = -88 := by
    have h := @roundNearestEven_fix ℝ _ _ 24 (-88) 0 (by norm_num)
    have e : (seededGlobals : Globals ℝ).yaw + 2.0 = -88 := by
      norm_num [seededGlobals, initGlobals]
    rw [e]
    simpa [ieee] using h
  refine ⟨rfl, e10, e0, ⟨hlo, hhi⟩, ?_, ?_⟩
  · rw [h.2.2.1, fy]
  · rw [h.2.2.2 toFloat_zero]
    rfl

/-- C9 fails as stated. The first event at the sub-pixel position
`(400 + 2 ^ (-20), 300 + 2 ^ (-20))`, both `double` values, arrives with the
initial globals (pitch 0).  In binary32 `lastX` becomes 400, not `xpos`, and the
pitch becomes `-13421773 / 2 ^ 46 = -1.9e-7`, not 0: the delta is the
rounding error of the stored position. -/
theorem first_event_subpixel_position :
    (initGlobals : Globals ℝ).firstMouse = true ∧
    (initGlobals : Globals ℝ).pitch = 0 ∧
    (ieee : FloatModel ℝ).toDouble (400 + 1 / 1048576) = 400 + 1 / 1048576 ∧
    (ieee : FloatModel ℝ).toDouble (300 + 1 / 1048576) = 300 + 1 / 1048576 ∧
    (mouse_callback realLib ieee initGlobals (400 + 1 / 1048576) (300 + 1 / 1048576)).lastX
      = 400 ∧
    (mouse_callback realLib ieee initGlobals (400 + 1 / 1048576) (300 + 1 / 1048576)).lastX
      ≠ 400 + 1 / 1048576 ∧
    (mouse_callback realLib ieee initGlobals (400 + 1 / 1048576) (300 + 1 / 1048576)).pitch
      = -13421773 / 70368744177664 ∧
    (mouse_callback realLib ieee initGlobals (400 + 1 / 1048576) (300 + 1 / 1048576)).pitch
      ≠ (initGlobals : Globals ℝ).pitch := by
  have h := mouse_callback_first realLib ieee initGlobals (400 + 1 / 1048576)
    (300 + 1 / 1048576) rfl
  have dx : (ieee : FloatModel ℝ).toDouble (400 + 1 / 1048576) = 400 + 1 / 1048576 := by
    have h := @roundNearestEven_fix ℝ _ _ 53 419430401 (-20) (by norm_num)
    show roundNearestEven 53 ((400 : ℝ) + 1 / 1048576) = _
    norm_num at h ⊢
    exact h
  have dy : (ieee : FloatModel ℝ).toDouble (300 + 1 / 1048576) = 300 + 1 / 1048576 := by
    have h := @roundNearestEven_fix ℝ _ _ 53 314572801 (-20) (by norm_num)
    show roundNearestEven 53 ((300 : ℝ) + 1 / 1048576) = _
    norm_num at h ⊢
    exact h
  have fx : (ieee : FloatModel ℝ).toFloat (400 + 1 / 1048576) = 400 := by
    have h := roundNearestEven_eq 24 ((400 : ℝ) + 1 / 1048576) 13107200 (-15)
      (by norm_num [le_abs]) (by norm_num [abs_lt]) (by norm_num [abs_lt])
    show roundNearestEven 24 ((400 : ℝ) + 1 / 1048576) = _
    rw [h]; norm_num
  have fy : (ieee : FloatModel ℝ).toFloat (300 + 1 / 1048576) = 300 := by
    have h := roundNearestEven_eq 24 ((300 : ℝ) + 1 / 1048576) 9830400 (-15)
      (by norm_num [le_abs]) (by norm_num [abs_lt]) (by norm_num [abs_lt])
    show roundNearestEven 24 ((300 : ℝ) + 1 / 1048576) = _
    rw [h]; norm_num
  have ey : (300 : ℝ) - (300 + 1 / 1048576) = -1 / 1048576 := by norm_num
  have dd : (ieee : FloatModel ℝ).toDouble (-1 / 1048576) = -1 / 1048576 := by
    have h := @roundNearestEven_fix ℝ _ _ 53 (-1) (-20) (by norm_num)
    show roundNearestEven 53 ((-1 : ℝ) / 1048576) = _
    norm_num at h ⊢
    exact h
  have fd : (ieee : FloatModel ℝ).toFloat (-1 / 1048576) = -1 / 1048576 := by
    have h := @roundNearestEven_fix ℝ _ _ 24 (-1) (-20) (by norm_num)
    show roundNearestEven 24 ((-1 : ℝ) / 1048576) = _
    norm_num at h ⊢
    exact h
  have fp : (ieee : FloatModel ℝ).toFloat (-1 / 1048576 * (13421773 / 67108864))
      = -13421773 / 70368744177664 := by
    have h := @roundNearestEven_fix ℝ _ _ 24 (-13421773) (-46) (by norm_num)
    show roundNearestEven 24 ((-1 : ℝ) / 1048576 * (13421773 / 67108864)) = _
    norm_num at h ⊢
    exact h
  have fq : (ieee : FloatModel ℝ).toFloat ((initGlobals : Globals ℝ).pitch +
      -13421773 / 70368744177664) = -13421773 / 70368744177664 := by
    have h := @roundNearestEven_fix ℝ _ _ 24 (-13421773) (-46) (by norm_num)
    have e : (initGlobals : Globals ℝ).pitch + -13421773 / 70368744177664
        = -13421773 / 70368744177664 := by norm_num [initGlobals]
    rw [e]
    show roundNearestEven 24 ((-13421773 : ℝ) / 70368744177664) = _
    norm_num at h ⊢
    exact h
  have hpitch : (mouse_callback realLib ieee initGlobals (400 + 1 / 1048576)
      (300 + 1 / 1048576)).pitch = -13421773 / 70368744177664 := by
    rw [h.2.1, fy, ey, dd, fd, sensitivity_binary32, fp, fq]
    norm_num
  have hlastX : (mouse_callback realLib ieee initGlobals (400 + 1 / 1048576)
      (300 + 1 / 1048576)).lastX = 400 := by
    rw [h.2.2.1, fx]
  refine ⟨rfl, rfl, dx, dy, hlastX, ?_, hpitch, ?_⟩
  · rw [hlastX]; norm_num
  · rw [hpitch]; norm_num [initGlobals]

theorem mouse_callback_first_event_witness :
    (initGlobals : Globals ℝ).firstMouse = true ∧
    ((mouse_callback realLib ieee initGlobals 400 300).lastX = 400 ∧
      (mouse_callback realLib ieee initGlobals 400 300).lastY = 300 ∧
      (mouse_callback realLib ieee initGlobals 400 300).firstMouse = false ∧
      (mouse_callback realLib ieee initGlobals 400 300).yaw = -90 ∧
      (mouse_callback realLib ieee initGlobals 400 300).pitch = 0) := by
  have f400 : (ieee : FloatModel ℝ).toFloat 400 = 400 := by
    have h := @roundNearestEven_fix ℝ _ _ 24 400 0 (by norm_num)
    simpa [ieee] using h
  have f300 : (ieee : FloatModel ℝ).toFloat 300 = 300 := by
    have h := @roundNearestEven_fix ℝ _ _ 24 300 0 (by norm_num)
    simpa [ieee] using h
  have fyaw : (ieee : FloatModel ℝ).toFloat (initGlobals : Globals ℝ).yaw
      = (initGlobals : Globals ℝ).yaw := by
    have h := @roundNearestEven_fix ℝ _ _ 24 (-90) 0 (by norm_num)
    simpa [ieee, initGlobals] using h
  have h := mouse_callback_first_event realLib ieee initGlobals 400 300 rfl
  have h4 := h.2.2.2 f400 f300 toDouble_zero toFloat_zero fyaw toFloat_zero
    (by norm_num [initGlobals]) (by norm_num [initGlobals])
  exact ⟨rfl, h4.2.2.1, h4.2.2.2, h.2.2.1, h4.1, h4.2.1⟩

/-! ## The look direction over the reals -/

theorem sphericalDir_dot_self (yaw pitch : ℝ) :
    Vec3.dot (sphericalDir realLib yaw pitch) (sphericalDir realLib yaw pitch) = 1 := by
  simp only [Vec3.dot, sphericalDir, realLib]
  have hy := Real.sin_sq_add_cos_sq (radians realLib yaw)
  have hp := Real.sin_sq_add_cos_sq (radians realLib pitch)
  simp only [realLib] at hy hp
  nlinarith [hy, hp]

theorem length_sphericalDir (yaw pitch : ℝ) :
    length realLib (sphericalDir realLib yaw pitch) = 1 := by
  rw [length, sphericalDir_dot_self]
  simp [realLib]

theorem normalize_sphericalDir (yaw pitch : ℝ) :
    normalize realLib (sphericalDir realLib yaw pitch) = sphericalDir realLib yaw pitch := by
  rw [normalize, inversesqrt, sphericalDir_dot_self]
  simp [realLib, Vec3.scale]

/-- C7. For all real yaw and pitch the look direction
`(cos yaw cos pitch, sin pitch, sin yaw cos pitch)` (angles converted to radians)
has length exactly 1, `glm::normalize` leaves it unchanged, and the `lookDir`
that `mouse_callback` stores is the one the next frame computes from the same
yaw and pitch (however the callback rounds the yaw and pitch it stores). -/
theorem lookDir_unit_and_paths_agree (yaw pitch : ℝ) :
    length realLib (sphericalDir realLib yaw pitch) = 1 ∧
    normalize realLib (sphericalDir realLib yaw pitch) = sphericalDir realLib yaw pitch ∧
    ∀ (F : FloatModel ℝ) (g : Globals ℝ) (xpos ypos : ℝ) (eyePosition : Vec3 ℝ) (keys : Keys)
      (deltaTime : ℝ),
      (frame realLib (mouse_callback realLib F g xpos ypos) eyePosition keys
        deltaTime).globals.lookDir = (mouse_callback realLib F g xpos ypos).lookDir := by
  refine ⟨length_sphericalDir yaw pitch, normalize_sphericalDir yaw pitch, ?_⟩
  intro F g xpos ypos eyePosition keys deltaTime
  simp only [frame, frameLookDir]
  simp only [mouse_callback, normalize_sphericalDir]

/-! ## The tangent and bitangent of one triangle -/

section TriangleLemmas

variable {α : Type} [Field α]

/-- C3. For a triangle with non-zero UV determinant, columns 0 and 1 of
`mat2x3(e1, e2) * mat2(dV2, -dV1, -dU2, dU1) * c` with
`c = 1 / (dU1 * dV2 - dU2 * dV1)` are `f * (dV2 * e1 - dV1 * e2)` and
`f * (-dU2 * e1 + dU1 * e2)` with `f = c`. -/
theorem raw_tangent_bitangent_eq_spec (p0 p1 p2 : Vertex α) (_hdet : uvDet p0 p1 p2 ≠ 0) :
    rawTangent p0 p1 p2 = specTangent p0 p1 p2 ∧
    rawBitangent p0 p1 p2 = specBitangent p0 p1 p2 := by
  constructor
  · ext <;>
      simp only [rawTangent, tangentMatrix, specTangent, uvDet, Mat2x3.scale, Mat2x3.mulMat2,
        Mat2.ofEntries, Vec3.scale, Vec3.smul, Vec3.sub, Vertex.sub] <;> ring
  · ext <;>
      simp only [rawBitangent, tangentMatrix, specBitangent, uvDet, Mat2x3.scale,
        Mat2x3.mulMat2, Mat2.ofEntries, Vec3.scale, Vec3.smul, Vec3.add, Vertex.sub] <;> ring

theorem raw_tangent_bitangent_eq_spec_witness :
    uvDet (frontP0 : Vertex ℚ) frontP1 frontP2 ≠ 0 ∧
    (rawTangent (frontP0 : Vertex ℚ) frontP1 frontP2 = specTangent frontP0 frontP1 frontP2 ∧
     rawBitangent (frontP0 : Vertex ℚ) frontP1 frontP2 = specBitangent frontP0 frontP1 frontP2) :=
  ⟨by norm_num [uvDet, frontP0, frontP1, frontP2, Vertex.ofPosNormalUV],
    raw_tangent_bitangent_eq_spec frontP0 frontP1 frontP2
      (by norm_num [uvDet, frontP0, frontP1, frontP2, Vertex.ofPosNormalUV])⟩

theorem tangentMatrixF_exactArith (p0 p1 p2 : Vertex α) :
    tangentMatrixF exactArith p0 p1 p2 = tangentMatrix p0 p1 p2 := rfl

/-- C4, as the code has it. In exact arithmetic (no operation of lines 160-167
rounds), for a triangle with non-zero UV determinant `dU1 * dV2 - dU2 * dV1` the
un-normalised tangent `T` and bitangent `B` solve `p1 - p0 = dU1 * T + dV1 * B`
and `p2 - p0 = dU2 * T + dV2 * B` for the position differences `p1 - p0` and
`p2 - p0`; the exact reading of the computation is the `rawTangent` and
`rawBitangent` of the other claims. -/
theorem raw_tangent_bitangent_solve_uv_system (p0 p1 p2 : Vertex α)
    (hdet : (p1.u - p0.u) * (p2.v - p0.v) - (p2.u - p0.u) * (p1.v - p0.v) ≠ 0) :
    (⟨p1.x - p0.x, p1.y - p0.y, p1.z - p0.z⟩ : Vec3 α) =
      Vec3.add (Vec3.smul (p1.u - p0.u) (rawTangentF exactArith p0 p1 p2))
        (Vec3.smul (p1.v - p0.v) (rawBitangentF exactArith p0 p1 p2)) ∧
    (⟨p2.x - p0.x, p2.y - p0.y, p2.z - p0.z⟩ : Vec3 α) =
      Vec3.add (Vec3.smul (p2.u - p0.u) (rawTangentF exactArith p0 p1 p2))
        (Vec3.smul (p2.v - p0.v) (rawBitangentF exactArith p0 p1 p2)) ∧
    rawTangentF exactArith p0 p1 p2 = rawTangent p0 p1 p2 ∧
    rawBitangentF exactArith p0 p1 p2 = rawBitangent p0 p1 p2 := by
  refine ⟨?_, ?_, rfl, rfl⟩ <;> ext <;>
    simp only [rawTangentF, rawBitangentF, tangentMatrixF, Mat2x3.scaleF, Mat2x3.mulMat2F,
      Mat2.ofEntries, Vertex.subF, exactArith, id, Vec3.smul, Vec3.add] <;>
    field_simp <;> ring

theorem raw_tangent_bitangent_solve_uv_system_witness :
    ((frontP1 : Vertex ℚ).u - (frontP0 : Vertex ℚ).u) * ((frontP2 : Vertex ℚ).v
        - (frontP0 : Vertex ℚ).v)
      - ((frontP2 : Vertex ℚ).u - (frontP0 : Vertex ℚ).u) * ((frontP1 : Vertex ℚ).v
        - (frontP0 : Vertex ℚ).v) ≠ 0 ∧
    ((⟨(frontP1 : Vertex ℚ).x - (frontP0 : Vertex ℚ).x, (frontP1 : Vertex ℚ).y
          - (frontP0 : Vertex ℚ).y, (frontP1 : Vertex ℚ).z - (frontP0 : Vertex ℚ).z⟩ : Vec3 ℚ) =
      Vec3.add
        (Vec3.smul ((frontP1 : Vertex ℚ).u - (frontP0 : Vertex ℚ).u)
          (rawTangentF exactArith frontP0 frontP1 frontP2))
        (Vec3.smul ((frontP1 : Vertex ℚ).v - (frontP0 : Vertex ℚ).v)
          (rawBitangentF exactArith frontP0 frontP1 frontP2)) ∧
     (⟨(frontP2 : Vertex ℚ).x - (frontP0 : Vertex ℚ).x, (frontP2 : Vertex ℚ).y
          - (frontP0 : Vertex ℚ).y, (frontP2 : Vertex ℚ).z - (frontP0 : Vertex ℚ).z⟩ : Vec3 ℚ) =
      Vec3.add
        (Vec3.smul ((frontP2 : Vertex ℚ).u - (frontP0 : Vertex ℚ).u)
          (rawTangentF exactArith frontP0 frontP1 frontP2))
        (Vec3.smul ((frontP2 : Vertex ℚ).v - (frontP0 : Vertex ℚ).v)
          (rawBitangentF exactArith frontP0 frontP1 frontP2)) ∧
     rawTangentF exactArith (frontP0 : Vertex ℚ) frontP1 frontP2
       = rawTangent frontP0 frontP1 frontP2 ∧
     rawBitangentF exactArith (frontP0 : Vertex ℚ) frontP1 frontP2
       = rawBitangent frontP0 frontP1 frontP2) :=
  ⟨by norm_num [frontP0, frontP1, frontP2, Vertex.ofPosNormalUV],
    raw_tangent_bitangent_solve_uv_system frontP0 frontP1 frontP2
      (by norm_num [frontP0, frontP1, frontP2, Vertex.ofPosNormalUV])⟩

end TriangleLemmas

/-! ## The tangent computation in binary32 arithmetic -/

/-- C4 fails as stated. For the triangle with positions `(0, 0, 0)`, `(1, 0, 0)`,
`(0, 1, 0)` and UVs `(0, 0)`, `(1, 5)`, `(5, 1)` the UV determinant is -24, and
in binary32 `c` is the `float` nearest to `-1 / 24`; the computed
`T = (-11184811 / 2 ^ 28, 6990507 / 2 ^ 25, 0)` and
`B = (6990507 / 2 ^ 25, -11184811 / 2 ^ 28, 0)` give
`dU1 * T + dV1 * B = (268435469 / 268435456, 1 / 268435456, 0)`, not
`p1 - p0 = (1, 0, 0)`; evaluated in binary32 the first component is
`8388609 / 8388608`, again not 1. -/
theorem uv_system_fails_in_binary32 :
    ((skewP1 : Vertex ℚ).u - (originVertex 0 0 : Vertex ℚ).u) * ((skewP2 : Vertex ℚ).v
        - (originVertex 0 0 : Vertex ℚ).v)
      - ((skewP2 : Vertex ℚ).u - (originVertex 0 0 : Vertex ℚ).u) * ((skewP1 : Vertex ℚ).v
        - (originVertex 0 0 : Vertex ℚ).v) = -24 ∧
    rawTangentF ieee (originVertex 0 0 : Vertex ℚ) skewP1 skewP2 =
      ⟨-11184811 / 268435456, 6990507 / 33554432, 0⟩ ∧
    rawBitangentF ieee (originVertex 0 0 : Vertex ℚ) skewP1 skewP2 =
      ⟨6990507 / 33554432, -11184811 / 268435456, 0⟩ ∧
    (⟨(skewP1 : Vertex ℚ).x - (originVertex 0 0 : Vertex ℚ).x,
        (skewP1 : Vertex ℚ).y - (originVertex 0 0 : Vertex ℚ).y,
        (skewP1 : Vertex ℚ).z - (originVertex 0 0 : Vertex ℚ).z⟩ : Vec3 ℚ) ≠
      Vec3.add
        (Vec3.smul ((skewP1 : Vertex ℚ).u - (originVertex 0 0 : Vertex ℚ).u)
          (rawTangentF ieee (originVertex 0 0) skewP1 skewP2))
        (Vec3.smul ((skewP1 : Vertex ℚ).v - (originVertex 0 0 : Vertex ℚ).v)
          (rawBitangentF ieee (originVertex 0 0) skewP1 skewP2)) ∧
    (ieee : FloatModel ℚ).toFloat
        (ieee.toFloat (((skewP1 : Vertex ℚ).u - (originVertex 0 0 : Vertex ℚ).u)
          * (rawTangentF ieee (originVertex 0 0 : Vertex ℚ) skewP1 skewP2).x)
        + ieee.toFloat (((skewP1 : Vertex ℚ).v - (originVertex 0 0 : Vertex ℚ).v)
          * (rawBitangentF ieee (originVertex 0 0 : Vertex ℚ) skewP1 skewP2).x))
      = 8388609 / 8388608 := by
  have r0 : roundNearestEven 24 (0 : ℚ) = 0 := roundNearestEven_zero 24
  have r1 := @roundNearestEven_fix ℚ _ _ 24 1 0 (by norm_num)
  have r5 := @roundNearestEven_fix ℚ _ _ 24 5 0 (by norm_num)
  have rm5 := @roundNearestEven_fix ℚ _ _ 24 (-5) 0 (by norm_num)
  have r25 := @roundNearestEven_fix ℚ _ _ 24 25 0 (by norm_num)
  have rm24 := @roundNearestEven_fix ℚ _ _ 24 (-24) 0 (by norm_num)
  have rc := roundNearestEven_eq 24 (-1 / 24 : ℚ) (-11184811) (-28)
    (by norm_num [le_abs]) (by norm_num [abs_lt]) (by norm_num [abs_lt])
  have rcc := @roundNearestEven_fix ℚ _ _ 24 (-11184811) (-28) (by norm_num)
  have r5c := roundNearestEven_eq 24 (55924055 / 268435456 : ℚ) 13981014 (-26)
    (by norm_num [le_abs]) (by norm_num [abs_lt]) (by norm_num [abs_lt])
  have r5b := roundNearestEven_eq 24 (34952535 / 33554432 : ℚ) 8738134 (-23)
    (by norm_num [le_abs]) (by norm_num [abs_lt]) (by norm_num [abs_lt])
  have rsum := roundNearestEven_eq 24 (268435477 / 268435456 : ℚ) 8388609 (-23)
    (by norm_num [le_abs]) (by norm_num [abs_lt]) (by norm_num [abs_lt])
  norm_num at r1 r5 rm5 r25 rm24 rc rcc r5c r5b rsum
  have hT : rawTangentF ieee (originVertex 0 0 : Vertex ℚ) skewP1 skewP2 =
      ⟨-11184811 / 268435456, 6990507 / 33554432, 0⟩ := by
    simp only [rawTangentF, tangentMatrixF, Mat2x3.scaleF, Mat2x3.mulMat2F, Mat2.ofEntries,
      Vertex.subF, ieee, originVertex, skewP1, skewP2, Vertex.ofPosNormalUV]
    norm_num [r0, r1, r5, rm5, r25, rm24, rc, rcc, r5c]
  have hB : rawBitangentF ieee (originVertex 0 0 : Vertex ℚ) skewP1 skewP2 =
      ⟨6990507 / 33554432, -11184811 / 268435456, 0⟩ := by
    simp only [rawBitangentF, tangentMatrixF, Mat2x3.scaleF, Mat2x3.mulMat2F, Mat2.ofEntries,
      Vertex.subF, ieee, originVertex, skewP1, skewP2, Vertex.ofPosNormalUV]
    norm_num [r0, r1, r5, rm5, r25, rm24, rc, rcc, r5c]
  refine ⟨by norm_num [originVertex, skewP1, skewP2, Vertex.ofPosNormalUV], hT, hB, ?_, ?_⟩
  · rw [hT, hB]
    intro h
    have hx := congrArg Vec3.x h
    norm_num [Vec3.add, Vec3.smul, originVertex, skewP1, skewP2, Vertex.ofPosNormalUV] at hx
  · rw [hT, hB]
    simp only [ieee, originVertex, skewP1, skewP2, Vertex.ofPosNormalUV]
    norm_num [rcc, r5b, rsum]

/-! ## Normalisation over the reals -/

theorem dot_self_nonneg (v : Vec3 ℝ) : 0 ≤ Vec3.dot v v := by
  simp only [Vec3.dot]
  nlinarith [mul_self_nonneg v.x, mul_self_nonneg v.y, mul_self_nonneg v.z]

theorem dot_self_eq_zero_iff (v : Vec3 ℝ) : Vec3.dot v v = 0 ↔ v = Vec3.zero := by
  constructor
  · intro h
    simp only [Vec3.dot] at h
    have hx : v.x = 0 := by nlinarith [mul_self_nonneg v.x, mul_self_nonneg v.y, mul_self_nonneg v.z]
    have hy : v.y = 0 := by nlinarith [mul_self_nonneg v.x, mul_self_nonneg v.y, mul_self_nonneg v.z]
    have hz : v.z = 0 := by nlinarith [mul_self_nonneg v.x, mul_self_nonneg v.y, mul_self_nonneg v.z]
    ext <;> simp [Vec3.zero, hx, hy, hz]
  · rintro rfl
    simp [Vec3.dot, Vec3.zero]

theorem dot_scale_scale (v : Vec3 ℝ) (k : ℝ) :
    Vec3.dot (Vec3.scale v k) (Vec3.scale v k) = k ^ 2 * Vec3.dot v v := by
  simp only [Vec3.dot, Vec3.scale]; ring

theorem dot_scale_left (v w : Vec3 ℝ) (k : ℝ) :
    Vec3.dot (Vec3.scale v k) w = k * Vec3.dot v w := by
  simp only [Vec3.dot, Vec3.scale]; ring

/-- Over the reals `glm::normalize` returns a unit vector exactly on the non-zero
vectors. -/
theorem length_normalize_eq_one_iff (v : Vec3 ℝ) :
    length realLib (normalize realLib v) = 1 ↔ v ≠ Vec3.zero := by
  constructor
  · rintro h rfl
    simp [length, normalize, inversesqrt, realLib, Vec3.dot, Vec3.scale, Vec3.zero] at h
  · intro hv
    have hpos : 0 < Vec3.dot v v :=
      lt_of_le_of_ne (dot_self_nonneg v) (fun h => hv ((dot_self_eq_zero_iff v).mp h.symm))
    have hs : 0 < Real.sqrt (Vec3.dot v v) := Real.sqrt_pos.mpr hpos
    have hsq : Real.sqrt (Vec3.dot v v) ^ 2 = Vec3.dot v v := Real.sq_sqrt hpos.le
    have hone : (1 / Real.sqrt (Vec3.dot v v)) ^ 2 * Vec3.dot v v = 1 := by
      rw [one_div, inv_pow, hsq]
      exact inv_mul_cancel₀ hpos.ne.symm
    simp only [length, normalize, inversesqrt, realLib]
    rw [dot_scale_scale, hone, Real.sqrt_one]

/-- The un-normalised tangent and bitangent are orthogonal to `e1 x e2`. -/
theorem raw_dot_normal (p0 p1 p2 : Vertex ℝ) :
    Vec3.dot (rawTangent p0 p1 p2) (geometricNormal p0 p1 p2) = 0 ∧
    Vec3.dot (rawBitangent p0 p1 p2) (geometricNormal p0 p1 p2) = 0 := by
  constructor <;>
    simp only [rawTangent, rawBitangent, tangentMatrix, geometricNormal, Mat2x3.scale,
      Mat2x3.mulMat2, Mat2.ofEntries, Vec3.scale, Vec3.dot, Vec3.cross, Vertex.sub] <;> ring

/-- For a non-zero UV determinant `d`, `e1 x e2 = d * (T x B)` for the
un-normalised tangent `T` and bitangent `B`. -/
theorem normal_eq_det_smul_cross (p0 p1 p2 : Vertex ℝ) (hdet : uvDet p0 p1 p2 ≠ 0) :
    geometricNormal p0 p1 p2 =
      Vec3.smul (uvDet p0 p1 p2) (Vec3.cross (rawTangent p0 p1 p2) (rawBitangent p0 p1 p2)) := by
  simp only [uvDet] at hdet
  ext <;>
    simp only [rawTangent, rawBitangent, tangentMatrix, geometricNormal, uvDet, Mat2x3.scale,
      Mat2x3.mulMat2, Mat2.ofEntries, Vec3.scale, Vec3.smul, Vec3.cross, Vertex.sub] <;>
    field_simp <;> ring

theorem raw_ne_zero_of_normal_ne_zero (p0 p1 p2 : Vertex ℝ) (hdet : uvDet p0 p1 p2 ≠ 0)
    (hn : geometricNormal p0 p1 p2 ≠ Vec3.zero) :
    rawTangent p0 p1 p2 ≠ Vec3.zero ∧ rawBitangent p0 p1 p2 ≠ Vec3.zero := by
  rw [normal_eq_det_smul_cross p0 p1 p2 hdet] at hn
  constructor <;> intro h <;> apply hn <;> rw [h] <;>
    simp [Vec3.smul, Vec3.cross, Vec3.zero]

/-- C2, as the code has it. For a triangle with non-zero UV determinant: where
the un-normalised tangent is not the zero vector, the written tangent is of
length 1 and has zero dot product with the geometric normal
`(p1 - p0) x (p2 - p0)`; likewise the bitangent; and when the geometric normal is
not the zero vector neither un-normalised vector is zero, so both hold.  Nothing
is stated where an un-normalised vector is zero and `glm::normalize` divides by
zero. -/
theorem tangent_bitangent_unit_orthogonal (p0 p1 p2 : Vertex ℝ)
    (hdet : (p1.u - p0.u) * (p2.v - p0.v) - (p2.u - p0.u) * (p1.v - p0.v) ≠ 0) :
    (rawTangent p0 p1 p2 ≠ Vec3.zero →
      length realLib (triTangent realLib p0 p1 p2) = 1 ∧
      Vec3.dot (triTangent realLib p0 p1 p2)
        (Vec3.cross (Vec3.sub p1.position p0.position) (Vec3.sub p2.position p0.position)) = 0) ∧
    (rawBitangent p0 p1 p2 ≠ Vec3.zero →
      length realLib (triBitangent realLib p0 p1 p2) = 1 ∧
      Vec3.dot (triBitangent realLib p0 p1 p2)
        (Vec3.cross (Vec3.sub p1.position p0.position) (Vec3.sub p2.position p0.position)) = 0) ∧
    (Vec3.cross (Vec3.sub p1.position p0.position) (Vec3.sub p2.position p0.position)
        ≠ Vec3.zero →
      rawTangent p0 p1 p2 ≠ Vec3.zero ∧ rawBitangent p0 p1 p2 ≠ Vec3.zero ∧
      length realLib (triTangent realLib p0 p1 p2) = 1 ∧
      length realLib (triBitangent realLib p0 p1 p2) = 1 ∧
      Vec3.dot (triTangent realLib p0 p1 p2)
        (Vec3.cross (Vec3.sub p1.position p0.position) (Vec3.sub p2.position p0.position)) = 0 ∧
      Vec3.dot (triBitangent realLib p0 p1 p2)
        (Vec3.cross (Vec3.sub p1.position p0.position) (Vec3.sub p2.position p0.position))
        = 0) := by
  have hn : Vec3.cross (Vec3.sub p1.position p0.position) (Vec3.sub p2.position p0.position)
      = geometricNormal p0 p1 p2 := rfl
  have hdT : Vec3.dot (triTangent realLib p0 p1 p2) (geometricNormal p0 p1 p2) = 0 := by
    rw [triTangent, normalize, dot_scale_left, (raw_dot_normal p0 p1 p2).1, mul_zero]
  have hdB : Vec3.dot (triBitangent realLib p0 p1 p2) (geometricNormal p0 p1 p2) = 0 := by
    rw [triBitangent, normalize, dot_scale_left, (raw_dot_normal p0 p1 p2).2, mul_zero]
  rw [hn]
  refine ⟨fun hT => ⟨(length_normalize_eq_one_iff _).mpr hT, hdT⟩,
    fun hB => ⟨(length_normalize_eq_one_iff _).mpr hB, hdB⟩, ?_⟩
  intro hne
  have h := raw_ne_zero_of_normal_ne_zero p0 p1 p2 hdet hne
  exact ⟨h.1, h.2, (length_normalize_eq_one_iff _).mpr h.1,
    (length_normalize_eq_one_iff _).mpr h.2, hdT, hdB⟩

theorem tangent_bitangent_unit_orthogonal_witness :
    ((frontP1 : Vertex ℝ).u - (frontP0 : Vertex ℝ).u) * ((frontP2 : Vertex ℝ).v
        - (frontP0 : Vertex ℝ).v)
      - ((frontP2 : Vertex ℝ).u - (frontP0 : Vertex ℝ).u) * ((frontP1 : Vertex ℝ).v
        - (frontP0 : Vertex ℝ).v) ≠ 0 ∧
    Vec3.cross (Vec3.sub (frontP1 : Vertex ℝ).position (frontP0 : Vertex ℝ).position)
      (Vec3.sub (frontP2 : Vertex ℝ).position (frontP0 : Vertex ℝ).position) ≠ Vec3.zero ∧
    (rawTangent (frontP0 : Vertex ℝ) frontP1 frontP2 ≠ Vec3.zero ∧
      rawBitangent (frontP0 : Vertex ℝ) frontP1 frontP2 ≠ Vec3.zero ∧
      length realLib (triTangent realLib frontP0 frontP1 frontP2) = 1 ∧
      length realLib (triBitangent realLib frontP0 frontP1 frontP2) = 1 ∧
      Vec3.dot (triTangent realLib frontP0 frontP1 frontP2)
        (Vec3.cross (Vec3.sub (frontP1 : Vertex ℝ).position (frontP0 : Vertex ℝ).position)
          (Vec3.sub (frontP2 : Vertex ℝ).position (frontP0 : Vertex ℝ).position)) = 0 ∧
      Vec3.dot (triBitangent realLib frontP0 frontP1 frontP2)
        (Vec3.cross (Vec3.sub (frontP1 : Vertex ℝ).position (frontP0 : Vertex ℝ).position)
          (Vec3.sub (frontP2 : Vertex ℝ).position (frontP0 : Vertex ℝ).position)) = 0) := by
  have hdet : ((frontP1 : Vertex ℝ).u - (frontP0 : Vertex ℝ).u) * ((frontP2 : Vertex ℝ).v
        - (frontP0 : Vertex ℝ).v)
      - ((frontP2 : Vertex ℝ).u - (frontP0 : Vertex ℝ).u) * ((frontP1 : Vertex ℝ).v
        - (frontP0 : Vertex ℝ).v) ≠ 0 := by
    norm_num [frontP0, frontP1, frontP2, Vertex.ofPosNormalUV]
  have hn : Vec3.cross (Vec3.sub (frontP1 : Vertex ℝ).position (frontP0 : Vertex ℝ).position)
      (Vec3.sub (frontP2 : Vertex ℝ).position (frontP0 : Vertex ℝ).position) ≠ Vec3.zero := by
    intro h
    have hz := congrArg Vec3.z h
    norm_num [Vec3.cross, Vec3.sub, Vec3.zero, Vertex.position, frontP0, frontP1, frontP2,
      Vertex.ofPosNormalUV] at hz
  exact ⟨hdet, hn, (tangent_bitangent_unit_orthogonal frontP0 frontP1 frontP2 hdet).2.2 hn⟩

/-- C2 fails as stated: the triangle whose three positions are the origin and
whose UVs are `(0, 0)`, `(1, 0)`, `(0, 1)` has UV determinant 1, and its
un-normalised tangent and bitangent are the zero vector.  Whatever real factor
multiplies them the result has length 0, and the tangent and the bitangent of
the model are not of length 1 (in the program the factor `inversesqrt(0)` is
infinite and the written components are NaN). -/
theorem collapsed_triangle_not_unit :
    uvDet (originVertex 0 0 : Vertex ℝ) (originVertex 1 0) (originVertex 0 1) = 1 ∧
    rawTangent (originVertex 0 0 : Vertex ℝ) (originVertex 1 0) (originVertex 0 1) = Vec3.zero ∧
    rawBitangent (originVertex 0 0 : Vertex ℝ) (originVertex 1 0) (originVertex 0 1)
      = Vec3.zero ∧
    (∀ k : ℝ, length realLib (Vec3.scale
        (rawTangent (originVertex 0 0 : Vertex ℝ) (originVertex 1 0) (originVertex 0 1)) k) ≠ 1 ∧
      length realLib (Vec3.scale
        (rawBitangent (originVertex 0 0 : Vertex ℝ) (originVertex 1 0) (originVertex 0 1)) k)
        ≠ 1) ∧
    length realLib (triTangent realLib (originVertex 0 0) (originVertex 1 0) (originVertex 0 1))
      ≠ 1 ∧
    length realLib (triBitangent realLib (originVertex 0 0) (originVertex 1 0) (originVertex 0 1))
      ≠ 1 := by
  have hT : rawTangent (originVertex 0 0 : Vertex ℝ) (originVertex 1 0) (originVertex 0 1)
      = Vec3.zero := by
    ext <;> norm_num [rawTangent, tangentMatrix, Mat2x3.scale, Mat2x3.mulMat2, Mat2.ofEntries,
      Vec3.scale, Vec3.zero, Vertex.sub, originVertex, Vertex.ofPosNormalUV]
  have hB : rawBitangent (originVertex 0 0 : Vertex ℝ) (originVertex 1 0) (originVertex 0 1)
      = Vec3.zero := by
    ext <;> norm_num [rawBitangent, tangentMatrix, Mat2x3.scale, Mat2x3.mulMat2, Mat2.ofEntries,
      Vec3.scale, Vec3.zero, Vertex.sub, originVertex, Vertex.ofPosNormalUV]
  have hk : ∀ k : ℝ, length realLib (Vec3.scale (Vec3.zero : Vec3 ℝ) k) ≠ 1 := by
    intro k
    simp [length, realLib, Vec3.dot, Vec3.scale, Vec3.zero]
  refine ⟨by norm_num [uvDet, originVertex, Vertex.ofPosNormalUV], hT, hB, ?_, ?_, ?_⟩
  · intro k
    rw [hT, hB]
    exact ⟨hk k, hk k⟩
  · rw [triTangent, normalize, hT]
    exact hk _
  · rw [triBitangent, normalize, hB]
    exact hk _

/-! ## The light uniforms -/

section LightLemmas

variable {α : Type} [LinearOrderedField α]

/-- C5, as the code has it. Of the light uniforms of a frame, `dirLight.direction`
and `spotLight.direction` are the look direction computed from yaw and pitch and
`spotLight.position` is the eye position; every other light uniform has the same
value in any two frames, whatever the globals, eye position, keys and frame
time. -/
theorem light_uniforms_camera_dependence (L : MathLib α) (g g' : Globals α)
    (eyePosition eyePosition' : Vec3 α) (keys keys' : Keys) (deltaTime deltaTime' : α) :
    (frame L g eyePosition keys deltaTime).dirLight.direction = sphericalDir L g.yaw g.pitch ∧
    (frame L g eyePosition keys deltaTime).spotLight.direction = sphericalDir L g.yaw g.pitch ∧
    (frame L g eyePosition keys deltaTime).spotLight.position =
      (frame L g eyePosition keys deltaTime).eyePosition ∧
    (frame L g eyePosition keys deltaTime).dirLight.ambient =
      (frame L g' eyePosition' keys' deltaTime').dirLight.ambient ∧
    (frame L g eyePosition keys deltaTime).dirLight.diffuse =
      (frame L g' eyePosition' keys' deltaTime').dirLight.diffuse ∧
    (frame L g eyePosition keys deltaTime).dirLight.specular =
      (frame L g' eyePosition' keys' deltaTime').dirLight.specular ∧
    (frame L g eyePosition keys deltaTime).pointLight =
      (frame L g' eyePosition' keys' deltaTime').pointLight ∧
    (frame L g eyePosition keys deltaTime).spotLight.ambient =
      (frame L g' eyePosition' keys' deltaTime').spotLight.ambient ∧
    (frame L g eyePosition keys deltaTime).spotLight.diffuse =
      (frame L g' eyePosition' keys' deltaTime').spotLight.diffuse ∧
    (frame L g eyePosition keys deltaTime).spotLight.specular =
      (frame L g' eyePosition' keys' deltaTime').spotLight.specular ∧
    (frame L g eyePosition keys deltaTime).spotLight.kConstant =
      (frame L g' eyePosition' keys' deltaTime').spotLight.kConstant ∧
    (frame L g eyePosition keys deltaTime).spotLight.kLinear =
      (frame L g' eyePosition' keys' deltaTime').spotLight.kLinear ∧
    (frame L g eyePosition keys deltaTime).spotLight.kQuadratic =
      (frame L g' eyePosition' keys' deltaTime').spotLight.kQuadratic ∧
    (frame L g eyePosition keys deltaTime).spotLight.cutOffAngle =
      (frame L g' eyePosition' keys' deltaTime').spotLight.cutOffAngle :=
  ⟨rfl, rfl, rfl, rfl, rfl, rfl, rfl, rfl, rfl, rfl, rfl, rfl, rfl, rfl⟩

end LightLemmas

/-- C5 fails as stated: `dirLight.direction` differs between the frame drawn from
the initial globals (yaw -90, pitch 0), where it is `(0, 0, -1)`, and the frame
drawn after the yaw has become 90, where it is `(0, 0, 1)`. -/
theorem dirLight_direction_follows_camera :
    (frame realLib initGlobals initEyePosition noKeys 0).dirLight.direction = ⟨0, 0, -1⟩ ∧
    (frame realLib { (initGlobals : Globals ℝ) with yaw := 90 } initEyePosition noKeys
      0).dirLight.direction = ⟨0, 0, 1⟩ ∧
    (frame realLib initGlobals initEyePosition noKeys 0).dirLight.direction ≠
      (frame realLib { (initGlobals : Globals ℝ) with yaw := 90 } initEyePosition noKeys
        0).dirLight.direction := by
  have hneg : radians realLib (-90) = -(Real.pi / 2) := by simp only [radians, realLib]; ring
  have hpos : radians realLib 90 = Real.pi / 2 := by simp only [radians, realLib]; ring
  have hzero : radians realLib 0 = 0 := by simp [radians]
  have h1 : (frame realLib initGlobals initEyePosition noKeys 0).dirLight.direction
      = ⟨0, 0, -1⟩ := by
    simp only [frame, frameLookDir, sphericalDir, initGlobals, hneg, hzero]
    simp [realLib]
  have h2 : (frame realLib { (initGlobals : Globals ℝ) with yaw := 90 } initEyePosition noKeys
      0).dirLight.direction = ⟨0, 0, 1⟩ := by
    simp only [frame, frameLookDir, sphericalDir, initGlobals, hpos, hzero]
    simp [realLib]
  refine ⟨h1, h2, ?_⟩
  rw [h1, h2]
  intro h
  have hz := congrArg Vec3.z h
  norm_num at hz

/-! ## The model matrices -/

section ModelLemmas

variable {α : Type} [Field α]

/-- The three GLM calls of lines 459-463 build the product `T * R * S`, whatever
the maths library computes. -/
theorem modelMatrixAt_eq_product (L : MathLib α) (pos : Vec3 α) (i : Nat) :
    modelMatrixAt L pos i =
      Mat4.mul
        (Mat4.mul (translationMatrix pos)
          (rotationMatrix L (radians L (20.0 * (i : α)))
            (normalize L (normalize L ⟨1.0, 1.0, 1.0⟩))))
        (scaleMatrix ⟨0.5, 0.5, 0.5⟩) := by
  ext <;>
    simp only [modelMatrixAt, scale, rotate, translate, Mat4.ofScalar, Mat4.mul,
      translationMatrix, rotationMatrix, scaleMatrix, Vec4.add, Vec4.scale, Vec3.scale] <;>
    ring

theorem modelMatrices_getElem? (L : MathLib α) (i : Nat) :
    (modelMatrices L)[i]? = modelMatrix L i := by
  simp only [modelMatrices, modelMatrix, List.getElem?_mapIdx]

end ModelLemmas

/-- Over the reals the rotation axis is `(1, 1, 1) / sqrt 3`, also after the
second normalisation inside `glm::rotate`. -/
theorem normalize_axis :
    normalize realLib (⟨1.0, 1.0, 1.0⟩ : Vec3 ℝ) =
      ⟨1 / Real.sqrt 3, 1 / Real.sqrt 3, 1 / Real.sqrt 3⟩ ∧
    normalize realLib (normalize realLib (⟨1.0, 1.0, 1.0⟩ : Vec3 ℝ)) =
      ⟨1 / Real.sqrt 3, 1 / Real.sqrt 3, 1 / Real.sqrt 3⟩ := by
  have h3 : Vec3.dot (⟨1.0, 1.0, 1.0⟩ : Vec3 ℝ) ⟨1.0, 1.0, 1.0⟩ = 3 := by
    simp only [Vec3.dot]; norm_num
  have h1 : normalize realLib (⟨1.0, 1.0, 1.0⟩ : Vec3 ℝ) =
      ⟨1 / Real.sqrt 3, 1 / Real.sqrt 3, 1 / Real.sqrt 3⟩ := by
    rw [normalize, inversesqrt, h3]
    simp only [Vec3.scale, realLib]
    norm_num
  refine ⟨h1, ?_⟩
  rw [h1]
  have hs : Real.sqrt 3 ^ 2 = 3 := Real.sq_sqrt (by norm_num)
  have hne : Real.sqrt 3 ≠ 0 := by
    intro h; rw [h] at hs; norm_num at hs
  have hd : Vec3.dot (⟨1 / Real.sqrt 3, 1 / Real.sqrt 3, 1 / Real.sqrt 3⟩ : Vec3 ℝ)
      ⟨1 / Real.sqrt 3, 1 / Real.sqrt 3, 1 / Real.sqrt 3⟩ = 1 := by
    simp only [Vec3.dot]
    field_simp
    nlinarith [hs]
  rw [normalize, inversesqrt, hd]
  simp [Vec3.scale, realLib]

theorem cubePositions_length : (cubePositions : List (Vec3 ℝ)).length = 10 := rfl

/-- C10. For every loop variable `i` in `0..9` the model matrix of the draw loop
is the product `T(cubePositions[i]) * R(20 * i degrees, (1, 1, 1) / sqrt 3) * S(0.5)`;
it is the same in every frame, whatever the globals, eye position, keys and frame
time; and for `i = 0` it is `diag(0.5, 0.5, 0.5, 1)`. -/
theorem modelMatrix_eq_translate_rotate_scale (i : Nat) (hi : i < 10) :
    (∃ pos : Vec3 ℝ, cubePositions[i]? = some pos ∧
      modelMatrix realLib i = some
        (Mat4.mul
          (Mat4.mul (translationMatrix pos)
            (rotationMatrix realLib (radians realLib (20 * (i : ℝ)))
              ⟨1 / Real.sqrt 3, 1 / Real.sqrt 3, 1 / Real.sqrt 3⟩))
          (scaleMatrix ⟨0.5, 0.5, 0.5⟩))) ∧
    (∀ (g : Globals ℝ) (eyePosition : Vec3 ℝ) (keys : Keys) (deltaTime : ℝ),
      (frame realLib g eyePosition keys deltaTime).modelMatrices[i]? = modelMatrix realLib i) ∧
    modelMatrix realLib 0 =
      some ⟨⟨0.5, 0, 0, 0⟩, ⟨0, 0.5, 0, 0⟩, ⟨0, 0, 0.5, 0⟩, ⟨0, 0, 0, 1⟩⟩ := by
  refine ⟨?_, ?_, ?_⟩
  · have hlen : i < (cubePositions : List (Vec3 ℝ)).length := by
      rw [cubePositions_length]; exact hi
    refine ⟨cubePositions[i], List.getElem?_eq_getElem hlen, ?_⟩
    rw [modelMatrix, List.getElem?_eq_getElem hlen, Option.map_some', modelMatrixAt_eq_product,
      normalize_axis.2]
    norm_num
  · intro g eyePosition keys deltaTime
    simp only [frame]
    exact modelMatrices_getElem? realLib i
  · have hzero : radians realLib (20.0 * ((0 : ℕ) : ℝ)) = 0 := by simp [radians]
    have hpos : (cubePositions : List (Vec3 ℝ))[0]? = some ⟨0.0, 0.0, 0.0⟩ := rfl
    rw [modelMatrix, hpos, Option.map_some']
    congr 1
    ext <;>
      simp only [modelMatrixAt, scale, rotate, translate, Mat4.ofScalar, Vec4.add, Vec4.scale,
        Vec3.scale, hzero] <;>
      norm_num [realLib]

theorem modelMatrix_eq_translate_rotate_scale_witness :
    3 < 10 ∧
    ((∃ pos : Vec3 ℝ, cubePositions[3]? = some pos ∧
      modelMatrix realLib 3 = some
        (Mat4.mul
          (Mat4.mul (translationMatrix pos)
            (rotationMatrix realLib (radians realLib (20 * ((3 : ℕ) : ℝ)))
              ⟨1 / Real.sqrt 3, 1 / Real.sqrt 3, 1 / Real.sqrt 3⟩))
          (scaleMatrix ⟨0.5, 0.5, 0.5⟩))) ∧
    (∀ (g : Globals ℝ) (eyePosition : Vec3 ℝ) (keys : Keys) (deltaTime : ℝ),
      (frame realLib g eyePosition keys deltaTime).modelMatrices[3]? = modelMatrix realLib 3) ∧
    modelMatrix realLib 0 =
      some ⟨⟨0.5, 0, 0, 0⟩, ⟨0, 0.5, 0, 0⟩, ⟨0, 0, 0.5, 0⟩, ⟨0, 0, 0, 1⟩⟩) :=
  ⟨by decide, modelMatrix_eq_translate_rotate_scale 3 (by decide)⟩

/-! ## The tangent/bitangent loop over a mesh -/

section PassLemmas

variable {α : Type}

theorem Vertex.setTB_setTB (p : Vertex α) (t b t' b' : Vec3 α) :
    (p.setTB t b).setTB t' b' = p.setTB t' b' := rfl

theorem Vertex.setTB_self (p : Vertex α) : p.setTB p.tangent p.bitangent = p := rfl

theorem Vertex.tangent_setTB (p : Vertex α) (t b : Vec3 α) : (p.setTB t b).tangent = t := rfl

theorem Vertex.bitangent_setTB (p : Vertex α) (t b : Vec3 α) : (p.setTB t b).bitangent = b := rfl

/-- The tangent and bitangent of a triangle do not read the tangent and bitangent
stored in its vertices. -/
theorem triTangent_setTB [Field α] (L : MathLib α) (p0 p1 p2 : Vertex α) (t0 b0 t1 b1 t2 b2 : Vec3 α) :
    triTangent L (p0.setTB t0 b0) (p1.setTB t1 b1) (p2.setTB t2 b2) = triTangent L p0 p1 p2 ∧
    triBitangent L (p0.setTB t0 b0) (p1.setTB t1 b1) (p2.setTB t2 b2) = triBitangent L p0 p1 p2 :=
  ⟨rfl, rfl⟩

theorem readVertex_eq (idx : List Nat) (verts : List (Vertex α)) (i k : Nat)
    (hk : idx[i]? = some k) : readVertex idx verts i = verts[k]? := by
  simp [readVertex, hk]

/-- A write through an index in range succeeds and changes only the tangent and
bitangent of the vertex it addresses. -/
theorem writeVertex_spec (idx : List Nat) (verts : List (Vertex α)) (i k : Nat) (t b : Vec3 α)
    (hk : idx[i]? = some k) (hlt : k < verts.length) :
    ∃ out, writeVertex idx verts i t b = some out ∧ out.length = verts.length ∧
      ∀ v, out[v]? = if v = k then (verts[v]?).map (fun q => q.setTB t b) else verts[v]? := by
  refine ⟨verts.set k (verts[k].setTB t b), ?_, List.length_set _ _ _, ?_⟩
  · simp [writeVertex, hk, List.getElem?_eq_getElem hlt]
  · intro v
    by_cases hv : v = k
    · subst hv
      rw [if_pos rfl, List.getElem?_set, if_pos rfl, if_pos hlt, List.getElem?_eq_getElem hlt,
        Option.map_some']
    · rw [if_neg hv, List.getElem?_set_ne (fun h => hv h.symm)]

theorem lt_length_of_getElem? {β : Type} (l : List β) (i : Nat) (a : β) (h : l[i]? = some a) :
    i < l.length := by
  obtain ⟨hlt, _⟩ := List.getElem?_eq_some.mp h
  exact hlt

/-- The values a loop iteration computes depend on the positions and UVs of the
three vertices only: on an array whose vertices differ from those of `verts` in
tangent and bitangent at most, it computes what it computes on `verts`. -/
theorem triangleTB_spec [Field α] (L : MathLib α) (idx : List Nat) (verts S : List (Vertex α))
    (i i0 i1 i2 : Nat) (p0 p1 p2 : Vertex α)
    (h0 : idx[i]? = some i0) (h1 : idx[i + 1]? = some i1) (h2 : idx[i + 2]? = some i2)
    (hp0 : verts[i0]? = some p0) (hp1 : verts[i1]? = some p1) (hp2 : verts[i2]? = some p2)
    (hgeo : ∀ (v : Nat) (p : Vertex α), verts[v]? = some p → ∃ t b, S[v]? = some (p.setTB t b)) :
    triangleTB L idx S i = some (triTangent L p0 p1 p2, triBitangent L p0 p1 p2) := by
  obtain ⟨t0, b0, hs0⟩ := hgeo i0 p0 hp0
  obtain ⟨t1, b1, hs1⟩ := hgeo i1 p1 hp1
  obtain ⟨t2, b2, hs2⟩ := hgeo i2 p2 hp2
  simp only [triangleTB, readVertex_eq idx S i i0 h0, readVertex_eq idx S (i + 1) i1 h1,
    readVertex_eq idx S (i + 2) i2 h2, hs0, hs1, hs2, Option.bind_eq_bind, Option.some_bind,
    (triTangent_setTB L p0 p1 p2 t0 b0 t1 b1 t2 b2).1,
    (triTangent_setTB L p0 p1 p2 t0 b0 t1 b1 t2 b2).2]

/-- One loop iteration on an array whose vertices differ from those of `verts` in
tangent and bitangent at most: it succeeds, and it overwrites the tangent and
bitangent of the three vertices of the triangle and nothing else. -/
theorem tangentBody_spec [Field α] (L : MathLib α) (idx : List Nat) (verts S : List (Vertex α))
    (i i0 i1 i2 : Nat) (p0 p1 p2 : Vertex α)
    (h0 : idx[i]? = some i0) (h1 : idx[i + 1]? = some i1) (h2 : idx[i + 2]? = some i2)
    (hp0 : verts[i0]? = some p0) (hp1 : verts[i1]? = some p1) (hp2 : verts[i2]? = some p2)
    (hgeo : ∀ (v : Nat) (p : Vertex α), verts[v]? = some p → ∃ t b, S[v]? = some (p.setTB t b)) :
    ∃ out, tangentBody L idx S i = some out ∧ out.length = S.length ∧
      ∀ v, out[v]? =
        if v = i0 ∨ v = i1 ∨ v = i2 then
          (S[v]?).map (fun q => q.setTB (triTangent L p0 p1 p2) (triBitangent L p0 p1 p2))
        else S[v]? := by
  have htb := triangleTB_spec L idx verts S i i0 i1 i2 p0 p1 p2 h0 h1 h2 hp0 hp1 hp2 hgeo
  obtain ⟨t0, b0, hs0⟩ := hgeo i0 p0 hp0
  obtain ⟨t1, b1, hs1⟩ := hgeo i1 p1 hp1
  obtain ⟨t2, b2, hs2⟩ := hgeo i2 p2 hp2
  have hl0 := lt_length_of_getElem? S i0 _ hs0
  have hl1 := lt_length_of_getElem? S i1 _ hs1
  have hl2 := lt_length_of_getElem? S i2 _ hs2
  obtain ⟨S1, hw1, hlen1, hget1⟩ := writeVertex_spec idx S (i + 0) i0
    (triTangent L p0 p1 p2) (triBitangent L p0 p1 p2) h0 hl0
  obtain ⟨S2, hw2, hlen2, hget2⟩ := writeVertex_spec idx S1 (i + 1) i1
    (triTangent L p0 p1 p2) (triBitangent L p0 p1 p2) h1 (hlen1 ▸ hl1)
  obtain ⟨S3, hw3, hlen3, hget3⟩ := writeVertex_spec idx S2 (i + 2) i2
    (triTangent L p0 p1 p2) (triBitangent L p0 p1 p2) h2 (hlen2 ▸ hlen1 ▸ hl2)
  refine ⟨S3, ?_, by rw [hlen3, hlen2, hlen1], ?_⟩
  · simp only [tangentBody, htb, Option.bind_eq_bind, Option.some_bind, hw1, hw2, hw3]
  · intro v
    have hff : ∀ o : Option (Vertex α),
        Option.map (fun q => q.setTB (triTangent L p0 p1 p2) (triBitangent L p0 p1 p2))
          (Option.map (fun q => q.setTB (triTangent L p0 p1 p2) (triBitangent L p0 p1 p2)) o) =
        Option.map (fun q => q.setTB (triTangent L p0 p1 p2) (triBitangent L p0 p1 p2)) o := by
      intro o; cases o <;> rfl
    rw [hget3, hget2, hget1]
    split_ifs <;> first | rfl | (exfalso; tauto) | simp only [hff]

theorem tangentPassUpTo_zero [Field α] (L : MathLib α) (idx : List Nat)
    (verts : List (Vertex α)) : tangentPassUpTo L idx verts 0 = some verts := rfl

theorem tangentPassUpTo_succ [Field α] (L : MathLib α) (idx : List Nat)
    (verts : List (Vertex α)) (j : Nat) :
    tangentPassUpTo L idx verts (j + 1) =
      (tangentPassUpTo L idx verts j).bind (fun S => tangentBody L idx S (3 * j)) := by
  simp only [tangentPassUpTo, List.range_succ, List.foldlM_append, List.foldlM_cons,
    List.foldlM_nil, Option.bind_eq_bind, Option.pure_def, Option.bind_some]

/-- In a mesh whose index list has length `3 * m` and whose indices are in range,
the three reads of triangle `j < m` succeed. -/
theorem triangle_reads (idx : List Nat) (verts : List (Vertex α)) (m : Nat)
    (hlen : idx.length = 3 * m) (hrange : ∀ i ∈ idx, i < verts.length) (j : Nat) (hj : j < m) :
    ∃ i0 i1 i2 p0 p1 p2, idx[3 * j]? = some i0 ∧ idx[3 * j + 1]? = some i1 ∧
      idx[3 * j + 2]? = some i2 ∧ verts[i0]? = some p0 ∧ verts[i1]? = some p1 ∧
      verts[i2]? = some p2 := by
  have a0 : 3 * j < idx.length := by omega
  have a1 : 3 * j + 1 < idx.length := by omega
  have a2 : 3 * j + 2 < idx.length := by omega
  have r0 := hrange _ (List.getElem_mem a0)
  have r1 := hrange _ (List.getElem_mem a1)
  have r2 := hrange _ (List.getElem_mem a2)
  exact ⟨_, _, _, _, _, _, List.getElem?_eq_getElem a0, List.getElem?_eq_getElem a1,
    List.getElem?_eq_getElem a2, List.getElem?_eq_getElem r0, List.getElem?_eq_getElem r1,
    List.getElem?_eq_getElem r2⟩

theorem refersTo_iff (idx : List Nat) (j v i0 i1 i2 : Nat) (h0 : idx[3 * j]? = some i0)
    (h1 : idx[3 * j + 1]? = some i1) (h2 : idx[3 * j + 2]? = some i2) :
    refersTo idx j v ↔ v = i0 ∨ v = i1 ∨ v = i2 := by
  simp only [refersTo, h0, h1, h2, Option.some.injEq]
  constructor <;> rintro (h | h | h) <;> simp [h]

theorem refersTo_lt (idx : List Nat) (verts : List (Vertex α))
    (hrange : ∀ i ∈ idx, i < verts.length) (k v : Nat) (h : refersTo idx k v) :
    v < verts.length := by
  rcases h with h | h | h <;> exact hrange v (List.mem_iff_getElem?.mpr ⟨_, h⟩)

/-- The state after the first `j` iterations of the loop: the array has its
length, every vertex differs from the original in tangent and bitangent at most,
a vertex referred to by one of the first `j` triangles holds the values of the
last of them, and the other vertices are untouched. -/
theorem tangentPassUpTo_spec [Field α] (L : MathLib α) (idx : List Nat)
    (verts : List (Vertex α)) (m : Nat) (hlen : idx.length = 3 * m)
    (hrange : ∀ i ∈ idx, i < verts.length) (j : Nat) (hj : j ≤ m) :
    ∃ S, tangentPassUpTo L idx verts j = some S ∧ S.length = verts.length ∧
      (∀ (v : Nat) (p : Vertex α), verts[v]? = some p → ∃ t b, S[v]? = some (p.setTB t b)) ∧
      (∀ k, k < j → ∀ v, refersTo idx k v →
        (∀ k', k < k' → k' < j → ¬ refersTo idx k' v) →
        ∃ tb q, triangleTB L idx verts (3 * k) = some tb ∧ S[v]? = some q ∧
          q.tangent = tb.1 ∧ q.bitangent = tb.2) ∧
      (∀ v, (∀ k, k < j → ¬ refersTo idx k v) → S[v]? = verts[v]?) := by
  induction j with
  | zero =>
    refine ⟨verts, rfl, rfl, ?_, ?_, ?_⟩
    · intro v p hp
      exact ⟨p.tangent, p.bitangent, by rw [hp, Vertex.setTB_self]⟩
    · intro k hk
      exact absurd hk (Nat.not_lt_zero k)
    · intro v _
      rfl
  | succ j ih =>
    obtain ⟨S, hS, hSlen, hSgeo, hStb, hSrest⟩ := ih (by omega)
    obtain ⟨i0, i1, i2, p0, p1, p2, h0, h1, h2, hp0, hp1, hp2⟩ :=
      triangle_reads idx verts m hlen hrange j (by omega)
    obtain ⟨out, hout, houtlen, hget⟩ :=
      tangentBody_spec L idx verts S (3 * j) i0 i1 i2 p0 p1 p2 h0 h1 h2 hp0 hp1 hp2 hSgeo
    have hself : ∀ (v : Nat) (p : Vertex α), verts[v]? = some p →
        ∃ t b, verts[v]? = some (p.setTB t b) := fun v p hp =>
      ⟨p.tangent, p.bitangent, by rw [hp, Vertex.setTB_self]⟩
    have htb := triangleTB_spec L idx verts verts (3 * j) i0 i1 i2 p0 p1 p2 h0 h1 h2 hp0 hp1 hp2
      hself
    have href := fun v => refersTo_iff idx j v i0 i1 i2 h0 h1 h2
    refine ⟨out, ?_, by rw [houtlen, hSlen], ?_, ?_, ?_⟩
    · rw [tangentPassUpTo_succ, hS, Option.some_bind, hout]
    · intro v p hp
      obtain ⟨t, b, hs⟩ := hSgeo v p hp
      rw [hget, hs]
      split_ifs
      · exact ⟨_, _, rfl⟩
      · exact ⟨t, b, rfl⟩
    · intro k hk v hkv hlast
      rcases Nat.lt_succ_iff_lt_or_eq.mp hk with hlt | rfl
      · have hnot : ¬ refersTo idx j v := hlast j hlt (Nat.lt_succ_self j)
        obtain ⟨tb, q, h1', h2', h3', h4'⟩ :=
          hStb k hlt v hkv (fun k' hk' hk'j => hlast k' hk' (Nat.lt_succ_of_lt hk'j))
        refine ⟨tb, q, h1', ?_, h3', h4'⟩
        rw [hget, if_neg (fun h => hnot ((href v).mpr h)), h2']
      · have hv : v < verts.length := refersTo_lt idx verts hrange k v hkv
        obtain ⟨t, b, hs⟩ := hSgeo v verts[v] (List.getElem?_eq_getElem hv)
        refine ⟨_, (verts[v]).setTB (triTangent L p0 p1 p2) (triBitangent L p0 p1 p2), htb, ?_,
          rfl, rfl⟩
        rw [hget, if_pos ((href v).mp hkv), hs]
        rfl
    · intro v hv
      have hnot : ¬ refersTo idx j v := hv j (Nat.lt_succ_self j)
      rw [hget, if_neg (fun h => hnot ((href v).mpr h))]
      exact hSrest v (fun k hk => hv k (Nat.lt_succ_of_lt hk))

/-- C6. For a mesh whose index list has length `3 * m` and whose indices are all
in range, the loop runs to completion and keeps the length of the vertex array;
the values an iteration computes on the array as the earlier iterations left it
are those it computes on the original array; right after iteration `k` the three
vertices of triangle `k` hold its tangent and bitangent; and at the end a vertex
holds exactly the tangent and bitangent of the last triangle in index order that
refers to it.  (The UV determinants play no part in this.) -/
theorem tangentPass_last_triangle_wins [Field α] (L : MathLib α) (idx : List Nat)
    (verts : List (Vertex α)) (m : Nat) (hlen : idx.length = 3 * m)
    (hrange : ∀ i ∈ idx, i < verts.length) :
    ∃ out, tangentPass L idx verts = some out ∧ out.length = verts.length ∧
      (∀ k, k < m → ∃ mid after tb, tangentPassUpTo L idx verts k = some mid ∧
        triangleTB L idx mid (3 * k) = some tb ∧ triangleTB L idx verts (3 * k) = some tb ∧
        tangentPassUpTo L idx verts (k + 1) = some after ∧
        ∀ v, refersTo idx k v → ∃ q, after[v]? = some q ∧ q.tangent = tb.1 ∧ q.bitangent = tb.2) ∧
      (∀ k, k < m → ∀ v, refersTo idx k v →
        (∀ k', k < k' → k' < m → ¬ refersTo idx k' v) →
        ∃ tb q, triangleTB L idx verts (3 * k) = some tb ∧ out[v]? = some q ∧
          q.tangent = tb.1 ∧ q.bitangent = tb.2) := by
  obtain ⟨out, hout, houtlen, _, houttb, _⟩ :=
    tangentPassUpTo_spec L idx verts m hlen hrange m (Nat.le_refl m)
  have hm : (idx.length + 2) / 3 = m := by omega
  refine ⟨out, by rw [tangentPass, hm, hout], houtlen, ?_, houttb⟩
  intro k hk
  obtain ⟨mid, hmid, _, hmidgeo, _, _⟩ :=
    tangentPassUpTo_spec L idx verts m hlen hrange k (Nat.le_of_lt hk)
  obtain ⟨after, hafter, _, _, haftertb, _⟩ :=
    tangentPassUpTo_spec L idx verts m hlen hrange (k + 1) hk
  obtain ⟨i0, i1, i2, p0, p1, p2, h0, h1, h2, hp0, hp1, hp2⟩ :=
    triangle_reads idx verts m hlen hrange k hk
  have hself : ∀ (v : Nat) (p : Vertex α), verts[v]? = some p →
      ∃ t b, verts[v]? = some (p.setTB t b) := fun v p hp =>
    ⟨p.tangent, p.bitangent, by rw [hp, Vertex.setTB_self]⟩
  have htb := triangleTB_spec L idx verts verts (3 * k) i0 i1 i2 p0 p1 p2 h0 h1 h2 hp0 hp1 hp2
    hself
  have htbmid := triangleTB_spec L idx verts mid (3 * k) i0 i1 i2 p0 p1 p2 h0 h1 h2 hp0 hp1 hp2
    hmidgeo
  refine ⟨mid, after, _, hmid, htbmid, htb, hafter, ?_⟩
  intro v hv
  obtain ⟨tb, q, e1, e2, e3, e4⟩ :=
    haftertb k (Nat.lt_succ_self k) v hv (fun k' hk' hk'' => absurd hk'' (by omega))
  rw [htb] at e1
  cases e1
  exact ⟨q, e2, e3, e4⟩

end PassLemmas

theorem tangentPass_last_triangle_wins_witness :
    cubeIndices.length = 3 * 12 ∧
    (∀ i ∈ cubeIndices, i < (cubeVertices : List (Vertex ℝ)).length) ∧
    ∃ out, tangentPass realLib cubeIndices cubeVertices = some out ∧
      out.length = (cubeVertices : List (Vertex ℝ)).length ∧
      (∀ k, k < 12 → ∃ mid after tb, tangentPassUpTo realLib cubeIndices cubeVertices k = some mid ∧
        triangleTB realLib cubeIndices mid (3 * k) = some tb ∧
        triangleTB realLib cubeIndices cubeVertices (3 * k) = some tb ∧
        tangentPassUpTo realLib cubeIndices cubeVertices (k + 1) = some after ∧
        ∀ v, refersTo cubeIndices k v →
          ∃ q, after[v]? = some q ∧ q.tangent = tb.1 ∧ q.bitangent = tb.2) ∧
      (∀ k, k < 12 → ∀ v, refersTo cubeIndices k v →
        (∀ k', k < k' → k' < 12 → ¬ refersTo cubeIndices k' v) →
        ∃ tb q, triangleTB realLib cubeIndices cubeVertices (3 * k) = some tb ∧
          out[v]? = some q ∧ q.tangent = tb.1 ∧ q.bitangent = tb.2) :=
  ⟨rfl, by decide,
    tangentPass_last_triangle_wins realLib cubeIndices cubeVertices 12 rfl (by decide)⟩

/-! ## The tangent/bitangent loop on the cube -/

theorem cubeIndices_in_range :
    ∀ i, i < 36 → ∃ n, n < 24 ∧ cubeIndices[i]? = some n := by
  decide

theorem uvDet_setTB {α : Type} [Field α] (p0 p1 p2 : Vertex α) (t0 b0 t1 b1 t2 b2 : Vec3 α) :
    uvDet (p0.setTB t0 b0) (p1.setTB t1 b1) (p2.setTB t2 b2) = uvDet p0 p1 p2 := rfl

/-- The three vertices of each of the 12 triangles of the cube, as authored,
have UV determinant 1. -/
theorem cube_uvDet {α : Type} [Field α] (k : Nat) (hk : k < 12) :
    ∃ (i0 i1 i2 : Nat) (p0 p1 p2 : Vertex α),
      cubeIndices[3 * k]? = some i0 ∧ cubeIndices[3 * k + 1]? = some i1 ∧
      cubeIndices[3 * k + 2]? = some i2 ∧ cubeVertices[i0]? = some p0 ∧
      cubeVertices[i1]? = some p1 ∧ cubeVertices[i2]? = some p2 ∧ uvDet p0 p1 p2 = 1 := by
  interval_cases k <;>
    exact ⟨_, _, _, _, _, _, rfl, rfl, rfl, rfl, rfl, rfl,
      by norm_num [uvDet, cubeVertices, cubeIndices, Vertex.ofPosNormalUV]⟩

theorem cubeIndices_mem_lt {α : Type} [Field α] :
    ∀ i ∈ cubeIndices, i < (cubeVertices : List (Vertex α)).length := by
  show ∀ i ∈ cubeIndices, i < 24
  decide

/-- C11. On the cube mesh every index read `cubeIndices[i]`, `i < 36`, is below
24, the length of `cubeVertices`; for each of the 12 triangles the UV determinant
is 1, hence non-zero, both on the vertices as authored and on the three vertices
the loop reads at that iteration; and the loop runs to completion. -/
theorem cube_pass_reads_in_range_and_uvDet_one {α : Type} [Field α] (L : MathLib α) :
    (∀ i, i < 36 → ∃ n, n < 24 ∧ cubeIndices[i]? = some n) ∧
    (cubeVertices : List (Vertex α)).length = 24 ∧
    (∀ k, k < 12 → ∃ (i0 i1 i2 : Nat) (p0 p1 p2 : Vertex α),
      cubeIndices[3 * k]? = some i0 ∧ cubeIndices[3 * k + 1]? = some i1 ∧
      cubeIndices[3 * k + 2]? = some i2 ∧ cubeVertices[i0]? = some p0 ∧
      cubeVertices[i1]? = some p1 ∧ cubeVertices[i2]? = some p2 ∧
      uvDet p0 p1 p2 = 1 ∧ uvDet p0 p1 p2 ≠ 0) ∧
    (∀ k, k < 12 → ∃ (mid : List (Vertex α)) (q0 q1 q2 : Vertex α),
      tangentPassUpTo L cubeIndices cubeVertices k = some mid ∧
      readVertex cubeIndices mid (3 * k) = some q0 ∧
      readVertex cubeIndices mid (3 * k + 1) = some q1 ∧
      readVertex cubeIndices mid (3 * k + 2) = some q2 ∧
      uvDet q0 q1 q2 = 1 ∧ uvDet q0 q1 q2 ≠ 0) ∧
    ∃ out, cubeTangentPass L = some out := by
  refine ⟨cubeIndices_in_range, rfl, ?_, ?_, ?_⟩
  · intro k hk
    obtain ⟨i0, i1, i2, p0, p1, p2, h0, h1, h2, hp0, hp1, hp2, hdet⟩ := @cube_uvDet α _ k hk
    exact ⟨i0, i1, i2, p0, p1, p2, h0, h1, h2, hp0, hp1, hp2, hdet, by rw [hdet]; exact one_ne_zero⟩
  · intro k hk
    obtain ⟨i0, i1, i2, p0, p1, p2, h0, h1, h2, hp0, hp1, hp2, hdet⟩ := @cube_uvDet α _ k hk
    obtain ⟨mid, hmid, _, hgeo, _, _⟩ :=
      tangentPassUpTo_spec L cubeIndices cubeVertices 12 rfl cubeIndices_mem_lt k
        (Nat.le_of_lt hk)
    obtain ⟨t0, b0, hs0⟩ := hgeo i0 p0 hp0
    obtain ⟨t1, b1, hs1⟩ := hgeo i1 p1 hp1
    obtain ⟨t2, b2, hs2⟩ := hgeo i2 p2 hp2
    refine ⟨mid, p0.setTB t0 b0, p1.setTB t1 b1, p2.setTB t2 b2, hmid, ?_, ?_, ?_, ?_, ?_⟩
    · rw [readVertex_eq cubeIndices mid (3 * k) i0 h0, hs0]
    · rw [readVertex_eq cubeIndices mid (3 * k + 1) i1 h1, hs1]
    · rw [readVertex_eq cubeIndices mid (3 * k + 2) i2 h2, hs2]
    · rw [uvDet_setTB, hdet]
    · rw [uvDet_setTB, hdet]; exact one_ne_zero
  · obtain ⟨out, hout, _⟩ :=
      tangentPassUpTo_spec L cubeIndices cubeVertices 12 rfl cubeIndices_mem_lt 12
        (Nat.le_refl 12)
    exact ⟨out, hout⟩

/-! ## The tangent frames of the cube -/

theorem sqrt_four : Real.sqrt 4 = 2 := by
  rw [show (4 : ℝ) = 2 ^ 2 by norm_num]
  exact Real.sqrt_sq (by norm_num)

/-- Normalising twice a unit vector gives the unit vector back. -/
theorem normalize_two_smul (u : Vec3 ℝ) (hu : Vec3.dot u u = 1) :
    normalize realLib (Vec3.smul 2 u) = u := by
  have hd : Vec3.dot (Vec3.smul 2 u) (Vec3.smul 2 u) = 4 := by
    have h : Vec3.dot (Vec3.smul 2 u) (Vec3.smul 2 u) = 4 * Vec3.dot u u := by
      simp only [Vec3.dot, Vec3.smul]; ring
    rw [h, hu, mul_one]
  rw [normalize, inversesqrt, hd]
  simp only [realLib, sqrt_four]
  ext <;> simp only [Vec3.scale, Vec3.smul] <;> ring

theorem cubeFaceTangent_dot_self (f : Nat) :
    Vec3.dot (cubeFaceTangent f : Vec3 ℝ) (cubeFaceTangent f) = 1 := by
  unfold cubeFaceTangent
  split <;> norm_num [Vec3.dot]

theorem cubeFaceBitangent_dot_self (f : Nat) :
    Vec3.dot (cubeFaceBitangent f : Vec3 ℝ) (cubeFaceBitangent f) = 1 := by
  unfold cubeFaceBitangent
  split <;> norm_num [Vec3.dot]

theorem cubeFace_dot (f : Nat) :
    Vec3.dot (cubeFaceTangent f : Vec3 ℝ) (cubeFaceBitangent f) = 0 := by
  unfold cubeFaceTangent cubeFaceBitangent
  split <;> split <;> first | (exfalso; omega) | norm_num [Vec3.dot]

theorem normalize_eq_of_two_smul (v u : Vec3 ℝ) (h : v = Vec3.smul 2 u)
    (hu : Vec3.dot u u = 1) : normalize realLib v = u := by
  rw [h]; exact normalize_two_smul u hu

/-- The values the loop computes for triangle `k` of the cube over the reals: the
un-normalised vectors are twice the unit vectors of face `k / 2`. -/
theorem cube_triangleTB (k : Nat) (hk : k < 12) :
    triangleTB realLib cubeIndices cubeVertices (3 * k) =
      some (cubeFaceTangent (k / 2), cubeFaceBitangent (k / 2)) := by
  interval_cases k <;>
  · simp only [triangleTB, readVertex, cubeIndices, cubeVertices, List.getElem?_cons_succ,
      List.getElem?_cons_zero, Option.bind_eq_bind, Option.some_bind, Nat.reduceMul,
      Nat.reduceAdd, Nat.reduceDiv, triTangent, triBitangent]
    refine congrArg some (Prod.ext ?_ ?_)
    · refine normalize_eq_of_two_smul _ _ ?_ (cubeFaceTangent_dot_self _)
      ext <;> norm_num [rawTangent, tangentMatrix, Mat2x3.scale, Mat2x3.mulMat2,
        Mat2.ofEntries, Vec3.scale, Vec3.smul, Vertex.sub, Vertex.ofPosNormalUV, cubeFaceTangent]
    · refine normalize_eq_of_two_smul _ _ ?_ (cubeFaceBitangent_dot_self _)
      ext <;> norm_num [rawBitangent, tangentMatrix, Mat2x3.scale, Mat2x3.mulMat2,
        Mat2.ofEntries, Vec3.scale, Vec3.smul, Vertex.sub, Vertex.ofPosNormalUV,
        cubeFaceBitangent]

/-- Every vertex `v` of the cube belongs to face `v / 4`, and the last triangle
that refers to it is one of the two triangles of that face. -/
theorem cube_last_triangle :
    ∀ v, v < 24 → ∃ k, k < 12 ∧ (k / 2 = v / 4 ∧ refersTo cubeIndices k v ∧
      ∀ k', k' < 12 → k < k' → ¬ refersTo cubeIndices k' v) := by
  decide

/-- On every vertex of the cube the face vectors form a right-handed frame with
the authored normal: `tangent x bitangent = normal`. -/
theorem cube_cross_eq_normal (v : Nat) (hv : v < 24) :
    ∃ p : Vertex ℝ, cubeVertices[v]? = some p ∧
      Vec3.cross (cubeFaceTangent (v / 4)) (cubeFaceBitangent (v / 4)) = p.normal := by
  interval_cases v <;>
  · simp only [cubeVertices, List.getElem?_cons_succ, List.getElem?_cons_zero,
      Option.some.injEq, exists_eq_left', Nat.reduceDiv]
    ext <;> norm_num [Vec3.cross, Vertex.normal, Vertex.ofPosNormalUV, cubeFaceTangent,
      cubeFaceBitangent]

/-- The vertex array the loop leaves on the cube: vertex `v` is the authored
vertex with the unit vectors of face `v / 4` as tangent and bitangent. -/
theorem cubeTangentPass_spec :
    ∃ out : List (Vertex ℝ), cubeTangentPass realLib = some out ∧ out.length = 24 ∧
      ∀ v, v < 24 → ∃ p, cubeVertices[v]? = some p ∧
        out[v]? = some (p.setTB (cubeFaceTangent (v / 4)) (cubeFaceBitangent (v / 4))) := by
  obtain ⟨out, hout, hlen, hgeo, htb, _⟩ :=
    tangentPassUpTo_spec realLib cubeIndices cubeVertices 12 rfl cubeIndices_mem_lt 12
      (Nat.le_refl 12)
  refine ⟨out, hout, hlen, ?_⟩
  intro v hv
  have hv' : v < (cubeVertices : List (Vertex ℝ)).length := hv
  refine ⟨cubeVertices[v], List.getElem?_eq_getElem hv', ?_⟩
  obtain ⟨k, hk, hface, href, hlast⟩ := cube_last_triangle v hv
  obtain ⟨tb, q, e1, e2, e3, e4⟩ := htb k hk v href (fun k' h1 h2 => hlast k' h2 h1)
  obtain ⟨t, b, hs⟩ := hgeo v cubeVertices[v] (List.getElem?_eq_getElem hv')
  rw [cube_triangleTB k hk] at e1
  cases e1
  rw [hs] at e2
  cases e2
  rw [Vertex.tangent_setTB] at e3
  rw [Vertex.bitangent_setTB] at e4
  rw [hs, e3, e4, hface]

theorem length_of_dot_self_eq_one (u : Vec3 ℝ) (hu : Vec3.dot u u = 1) :
    length realLib u = 1 := by
  rw [length, hu]
  exact Real.sqrt_one

/-- C12. After the loop has run on the cube, each of the 24 vertices holds a
tangent and a bitangent of length 1, orthogonal to each other, whose cross
product `tangent x bitangent` is the vertex's authored normal; its position,
normal and UV are the authored ones; and two vertices of the same face
(`v / 4 = w / 4`) hold the same tangent and the same bitangent. -/
theorem cube_tangent_frames :
    ∃ out : List (Vertex ℝ), cubeTangentPass realLib = some out ∧ out.length = 24 ∧
      (∀ v, v < 24 → ∃ p q, cubeVertices[v]? = some p ∧ out[v]? = some q ∧
        length realLib q.tangent = 1 ∧ length realLib q.bitangent = 1 ∧
        Vec3.dot q.tangent q.bitangent = 0 ∧
        Vec3.cross q.tangent q.bitangent = p.normal ∧
        q.position = p.position ∧ q.normal = p.normal ∧ q.uv = p.uv) ∧
      (∀ v w, v < 24 → w < 24 → v / 4 = w / 4 →
        ∃ q r, out[v]? = some q ∧ out[w]? = some r ∧
          q.tangent = r.tangent ∧ q.bitangent = r.bitangent) := by
  obtain ⟨out, hout, hlen, hget⟩ := cubeTangentPass_spec
  refine ⟨out, hout, hlen, ?_, ?_⟩
  · intro v hv
    obtain ⟨p, hp, hq⟩ := hget v hv
    obtain ⟨p', hp', hcross⟩ := cube_cross_eq_normal v hv
    rw [hp] at hp'
    cases hp'
    refine ⟨p, _, hp, hq, ?_, ?_, ?_, ?_, rfl, rfl, rfl⟩
    · rw [Vertex.tangent_setTB]
      exact length_of_dot_self_eq_one _ (cubeFaceTangent_dot_self _)
    · rw [Vertex.bitangent_setTB]
      exact length_of_dot_self_eq_one _ (cubeFaceBitangent_dot_self _)
    · rw [Vertex.tangent_setTB, Vertex.bitangent_setTB]
      exact cubeFace_dot _
    · rw [Vertex.tangent_setTB, Vertex.bitangent_setTB]
      exact hcross
  · intro v w hv hw hface
    obtain ⟨p, _, hq⟩ := hget v hv
    obtain ⟨r, _, hr⟩ := hget w hw
    refine ⟨_, _, hq, hr, ?_, ?_⟩
    · rw [Vertex.tangent_setTB, Vertex.tangent_setTB, hface]
    · rw [Vertex.bitangent_setTB, Vertex.bitangent_setTB, hface]

end HW1
